import Mathlib

/-!
# Verification of the impostor-server room/game core

Shallow embedding of the socket.io server in `src/index.js` (voting engine,
start_game, membership) and `src/unnamed/part_000` (rejoin_room handler and
the disconnect grace timers).  JavaScript objects used as string-keyed maps
(`rooms`, `room.votes`, `disconnectTimers`, the `tallies` accumulator) are
modelled as insertion-ordered association lists, which matches the iteration
order of `Object.values` / `Object.entries` / `for ... in` for the
non-integer string keys used here.  Randomness (`Math.random`) is modelled by
explicit parameters: a `Nat` index for single uniform draws, and for the
reject-and-retry impostor-selection loop the list of ids the loop ends up
collecting, constrained by the loop's postcondition (`ImpostorChoice`).
JS `null`/`undefined`/`""` string fields are modelled as `Option String`
with `none` for the falsy values, matching the truthiness tests the code
performs on them.  Emission of socket events is modelled by returning the
list of emitted messages together with their destination.  Input
sanitization (`sanitizeInput`: trimming, length limiting, code uppercasing)
is an external collaborator of the core and is not modelled: handler inputs
are taken as already sanitized.
-/

namespace Impostor

/-- Private per-player role payload built by the `start_game` handler. -/
structure RoleData where
  role : String
  word : Option String
  category : String
  impostorHint : Option String
  startingPlayer : String
deriving DecidableEq

/-- One occupant of a room (an entry of `room.players`). -/
structure Player where
  id : String
  name : String
  isDead : Bool := false
  roleData : Option RoleData := none
deriving DecidableEq

/-- One game session (an entry of the global `rooms` table).
`votes` is the insertion-ordered map from voter id to target id. -/
structure Room where
  host : String
  players : List Player
  gameState : String
  votes : List (String × String) := []
deriving DecidableEq

/-- The `wordData` payload of a `start_game` request; each field may be
absent/empty (`none`). -/
structure WordData where
  word : Option String
  category : Option String
  hint : Option String
deriving DecidableEq

/-- Destination of an emitted socket event: broadcast to the room
(`io.to(roomCode)`) or targeted at one connection (`io.to(playerId)` /
`socket.emit`). -/
inductive Dest where
  | toRoom
  | toPlayer (id : String)
deriving DecidableEq

/-- The outbound socket events of the server. -/
inductive Msg where
  | errorMessage (text : String)
  | roomCreated (code : String)
  | joinSuccess (code : String)
  | updatePlayers (players : List Player) (hostId : Option String)
  | gameStarted (rd : Option RoleData)
  | gameReset
  | votingPhaseStarted (candidates : List (String × String))
  | playerEliminated (eliminatedId playerName : String) (isYou wasImpostor : Bool)
  | gameOver (winner reason : String) (impostorNames : List String)
  | nextRound (startingPlayer : String)
  | receiveChat (playerName message : String)
deriving DecidableEq

/-- The global `rooms` table: insertion-ordered map from room code to room. -/
abbrev RoomStore := List (String × Room)

/-- Whole-process state: the `rooms` table plus the set of connection ids
with a pending `disconnectTimers` entry. -/
structure ServerState where
  rooms : RoomStore
  timers : List String
deriving DecidableEq

/-! ## Generic list helpers (JS array/object primitives) -/

/-- JS object property lookup on an insertion-ordered association list. -/
def lookupS {β : Type} : List (String × β) → String → Option β
  | [], _ => none
  | (k, v) :: rest, key => if k = key then some v else lookupS rest key

/-- `Array.prototype.findIndex` returning `none` for `-1`. -/
def findIdxP {α : Type} (p : α → Bool) : List α → Option Nat
  | [] => none
  | a :: rest => if p a then some 0 else (findIdxP p rest).map (fun n => n + 1)

/-- `Array.prototype.find`. -/
def findP {α : Type} (p : α → Bool) : List α → Option α
  | [] => none
  | a :: rest => if p a then some a else findP p rest

/-- In-place mutation of the array element at one index
(`arr[i].field = ...`). -/
def updateAt {α : Type} : List α → Nat → (α → α) → List α
  | [], _, _ => []
  | a :: rest, 0, f => f a :: rest
  | a :: rest, n + 1, f => a :: updateAt rest n f

/-- `Array.prototype.splice(i, 1)`. -/
def removeAt {α : Type} : List α → Nat → List α
  | [], _ => []
  | _ :: rest, 0 => rest
  | a :: rest, n + 1 => a :: removeAt rest n

/-! ## Voting helpers (`processVotingResult` internals) -/

/-- `tallies[targetId] = (tallies[targetId] || 0) + 1` on the
insertion-ordered tally object. -/
def bump : List (String × Nat) → String → List (String × Nat)
  | [], k => [(k, 1)]
  | (k', n) :: rest, k =>
      if k' = k then (k', n + 1) :: rest else (k', n) :: bump rest k

/-- `Object.values(room.votes).forEach(... tally ...)`: count votes by
target, keys in first-occurrence order. -/
def tallies (votes : List (String × String)) : List (String × Nat) :=
  votes.foldl (fun t v => bump t v.2) []

/-- The count stored for a target in a tally object (0 when absent). -/
def countVal (t : List (String × Nat)) (k : String) : Nat :=
  (lookupS t k).getD 0

/-- The `maxVotes = -1; for (const [target, count] of Object.entries(tallies))`
scan: keep the first entry whose count strictly exceeds the running maximum. -/
def findMostVotedAux : List (String × Nat) → Int × Option String → Int × Option String
  | [], acc => acc
  | (k, c) :: rest, acc =>
      if (c : Int) > acc.1 then findMostVotedAux rest ((c : Int), some k)
      else findMostVotedAux rest acc

/-- The eliminated target chosen by the tally scan (`none` when no votes). -/
def findMostVoted (t : List (String × Nat)) : Option String :=
  (findMostVotedAux t (-1, none)).2

/-- `p.roleData && p.roleData.role === 'impostor'`. -/
def isImpostorP (p : Player) : Bool :=
  match p.roleData with
  | some rd => rd.role == "impostor"
  | none => false

/-- `room.players.filter(p => !p.isDead)`. -/
def livingPlayers (ps : List Player) : List Player :=
  ps.filter (fun p => !p.isDead)

/-- `room.players.filter(p => !p.isDead && p.roleData.role === 'impostor')`. -/
def livingImpostors (ps : List Player) : List Player :=
  ps.filter (fun p => !p.isDead && isImpostorP p)

/-- The per-player `player_eliminated` notifications. -/
def elimMsgList (ps : List Player) (victim : Player) (wasImpostor : Bool) :
    List (Dest × Msg) :=
  ps.map (fun p =>
    (Dest.toPlayer p.id,
     Msg.playerEliminated victim.id victim.name (p.id == victim.id) wasImpostor))

/-- The citizen-win `reason` string. -/
def citizenWinReason (victimName : String) : String :=
  "¡Eliminaron a " ++ victimName ++ "! Era el Impostor."

/-- The impostor-win `reason` string. -/
def impostorWinReason : String :=
  "Los Impostores han tomado el control de la nave."

/-- `resetRoomToLobby`: phase to lobby, votes cleared, everyone revived and
stripped of `roleData`.  (The `game_reset` emissions happen on a 4s
`setTimeout`; the state mutation itself is synchronous and is what we model.) -/
def resetRoomToLobby (room : Room) : Room :=
  { room with
      gameState := "lobby"
      votes := []
      players := room.players.map (fun p => { p with isDead := false, roleData := none }) }

/-- The tail of `processVotingResult` once a victim has been found and
marked: `players1` is the roster with the victim's `isDead` set, `victim`
the (pre-marking) victim entry.  Broadcasts the per-player elimination
events, then evaluates the win conditions in order. -/
def resolveElimination (room : Room) (players1 : List Player) (victim : Player)
    (rand : Nat) : Room × List (Dest × Msg) :=
  if (livingImpostors players1).length = 0 then
    (resetRoomToLobby { room with players := players1 },
     elimMsgList players1 victim (isImpostorP victim) ++ [(Dest.toRoom,
       Msg.gameOver "citizen" (citizenWinReason victim.name) [victim.name])])
  else
    if (livingImpostors players1).length ≥
        (livingPlayers players1).length - (livingImpostors players1).length then
      (resetRoomToLobby { room with players := players1 },
       elimMsgList players1 victim (isImpostorP victim) ++ [(Dest.toRoom,
         Msg.gameOver "impostor" impostorWinReason
           ((players1.filter (fun p => isImpostorP p)).map (fun p => p.name)))])
    else
      ({ room with players := players1, gameState := "playing", votes := [] },
       elimMsgList players1 victim (isImpostorP victim) ++ [(Dest.toRoom,
         Msg.nextRound ((((livingPlayers players1).get?
           (rand % (livingPlayers players1).length)).map (fun p => p.name)).getD ""))])

/-- `processVotingResult(roomCode)` from `src/index.js`.  `rand` models the
`Math.random()` draw of the next-round starting player.  Where the JS would
throw (`survivors[0].name` on an empty survivor list) the model substitutes
`""`; the theorems about those branches carry a nonemptiness hypothesis. -/
def processVotingResult (room : Room) (rand : Nat) : Room × List (Dest × Msg) :=
  match (findIdxP (fun p => some p.id == findMostVoted (tallies room.votes))
      room.players).bind (fun i => (room.players.get? i).map (fun v => (i, v))) with
  | some iv =>
      resolveElimination room
        (updateAt room.players iv.1 (fun p => { p with isDead := true })) iv.2 rand
  | none =>
      ({ room with gameState := "playing", votes := [] },
       [(Dest.toRoom,
         Msg.nextRound ((((livingPlayers room.players).get? 0).map
           (fun p => p.name)).getD ""))])

/-! ## Vote casting -/

/-- JS `room.votes[k] = v`: overwrite in place if present, else append. -/
def setVote : List (String × String) → String → String → List (String × String)
  | [], k, v => [(k, v)]
  | (k', v') :: rest, k, v =>
      if k' = k then (k, v) :: rest else (k', v') :: setVote rest k v

/-- The `room.votes[socket.id]` truthiness guard: an existing vote blocks a
new one only when its stored target string is non-empty. -/
def voteBlocks (votes : List (String × String)) (voterId : String) : Bool :=
  match lookupS votes voterId with
  | some t => !(t == "")
  | none => false

/-- The `cast_vote` handler body (after the room lookup). -/
def castVote (room : Room) (voterId targetId : String) (rand : Nat) :
    Room × List (Dest × Msg) :=
  if room.gameState ≠ "voting" then (room, [])
  else
    match findP (fun p => p.id == voterId) room.players with
    | none => (room, [])
    | some voter =>
      if voter.isDead then (room, [])
      else if voteBlocks room.votes voterId then (room, [])
      else
        let room1 := { room with votes := setVote room.votes voterId targetId }
        if room1.votes.length ≥ (livingPlayers room1.players).length then
          processVotingResult room1 rand
        else (room1, [])

/-! ## Game start -/

/-- `maxImpostors = Math.max(1, playerIds.length - 1);
finalImpostorCount = Math.min(impostorCount, maxImpostors)`. -/
def finalImpostorCount (playerCount : Nat) (impostorCount : Int) : Int :=
  min impostorCount (max 1 ((playerCount : Int) - 1))

/-- Number of ids the reject-and-retry selection `while` loop collects:
exactly `finalImpostorCount` when that is nonnegative, and none when the
requested count is negative (the loop guard fails immediately). -/
def numImpostorsSelected (playerCount : Nat) (impostorCount : Int) : Nat :=
  (finalImpostorCount playerCount impostorCount).toNat

/-- Postcondition of the impostor-selection loop: the collected ids are
distinct, drawn from the roster, and number `numImpostorsSelected`. -/
def ImpostorChoice (room : Room) (impostorCount : Int) (impostors : List String) : Prop :=
  impostors.Nodup ∧ (∀ i ∈ impostors, i ∈ room.players.map (fun p => p.id)) ∧
  impostors.length = numImpostorsSelected room.players.length impostorCount

/-- `!wordData || !wordData.word || !wordData.category`. -/
def wordDataValid : Option WordData → Bool
  | some wd => wd.word.isSome && wd.category.isSome
  | none => false

/-- The `roleData` computed for one player inside the `start_game` handler. -/
def assignRole (impostors : List String) (w c : String) (hint : Option String)
    (startingPlayerName : String) (p : Player) : RoleData :=
  if p.id ∈ impostors then
    { role := "impostor", word := none, category := c,
      impostorHint := hint, startingPlayer := startingPlayerName }
  else
    { role := "citizen", word := some w, category := c,
      impostorHint := none, startingPlayer := startingPlayerName }

/-- The `startingPlayerName` draw of the `start_game` handler; `sIdx`
models the `Math.floor(Math.random() * room.players.length)` draw. -/
def startingName (ps : List Player) (sIdx : Nat) : String :=
  ((ps.get? (sIdx % ps.length)).map (fun p => p.name)).getD ""

/-- The `start_game` handler body (after the room lookup).  `impostors` is
the output of the selection loop. -/
def startGame (room : Room) (requester : String) (wordData : Option WordData)
    (impostors : List String) (startIdx : Nat) : Room × List (Dest × Msg) :=
  if room.host ≠ requester then (room, [])
  else
    match wordData with
    | none => (room, [])
    | some wd =>
      match wd.word, wd.category with
      | some w, some c =>
        ({ room with
             gameState := "playing"
             players := room.players.map (fun p =>
               { p with roleData := some (assignRole impostors w c wd.hint
                 (startingName room.players startIdx) p) }) },
         room.players.map (fun p =>
           (Dest.toPlayer p.id,
            Msg.gameStarted
              (some (assignRole impostors w c wd.hint
                (startingName room.players startIdx) p)))))
      | _, _ => (room, [])

/-- The `start_voting` handler body (after the room lookup). -/
def startVoting (room : Room) (requester : String) : Room × List (Dest × Msg) :=
  if room.host ≠ requester then (room, [])
  else if room.gameState ≠ "playing" then (room, [])
  else
    ({ room with gameState := "voting", votes := [] },
     [(Dest.toRoom,
       Msg.votingPhaseStarted ((livingPlayers room.players).map
         (fun p => (p.id, p.name))))])

/-- The `reset_game` handler body (after the room lookup): it only sets the
phase back to lobby and broadcasts `game_reset`. -/
def resetGame (room : Room) (requester : String) : Room × List (Dest × Msg) :=
  if room.host == requester then
    ({ room with gameState := "lobby" }, [(Dest.toRoom, Msg.gameReset)])
  else (room, [])

/-! ## Room store operations -/

/-- Overwrite the room stored under a code. -/
def updateRoom (s : RoomStore) (code : String) (r : Room) : RoomStore :=
  s.map (fun e => if e.1 = code then (code, r) else e)

/-- `delete rooms[code]`. -/
def deleteRoom (s : RoomStore) (code : String) : RoomStore :=
  s.filter (fun e => !(e.1 == code))

/-- The `create_room` handler: a fresh code (the generator re-samples until
the code is absent, modelled by the `lookupS` guard) and a nonempty host
name create a single-player lobby room. -/
def createRoom (s : RoomStore) (code hostId hostName : String) : RoomStore :=
  if hostName = "" then s
  else if (lookupS s code).isSome then s
  else s ++ [(code,
    { host := hostId, players := [{ id := hostId, name := hostName }],
      gameState := "lobby" })]

/-- The `join_room` handler (state part). -/
def joinRoom (s : RoomStore) (code id name : String) : RoomStore :=
  if name = "" then s
  else
    match lookupS s code with
    | none => s
    | some room =>
      if room.gameState ≠ "lobby" then s
      else if room.players.length ≥ 12 then s
      else if room.players.any (fun p => p.name.toLower == name.toLower) then s
      else updateRoom s code
        { room with players := room.players ++ [{ id := id, name := name }] }

/-- `handlePlayerExit(roomCode)` for the player with connection id `pid`:
splice the player out, delete the room when it empties, otherwise transfer
the host role to `players[0]` when the host left. -/
def handlePlayerExit (s : RoomStore) (code pid : String) : RoomStore :=
  match lookupS s code with
  | none => s
  | some room =>
    match findIdxP (fun p => p.id == pid) room.players with
    | none => s
    | some i =>
      let remaining := removeAt room.players i
      if remaining.length = 0 then deleteRoom s code
      else
        updateRoom s code
          { room with
              players := remaining
              host := if room.host = pid then
                        ((remaining.get? 0).map (fun p => p.id)).getD ""
                      else room.host }

/-- The body of the 45-second disconnect timer (and of the `for (const code
in rooms)` scan in the immediate-disconnect variant): the first room holding
the stale id. -/
def findRoomOf (s : RoomStore) (pid : String) : Option String :=
  (findP (fun e => e.2.players.any (fun p => p.id == pid)) s).map (fun e => e.1)

/-- Removal logic run when a disconnect timer fires: the same
`handlePlayerExit` logic applied to the first room containing the stale id. -/
def evictPlayer (s : RoomStore) (pid : String) : RoomStore :=
  match findRoomOf s pid with
  | none => s
  | some code => handlePlayerExit s code pid

/-- The disconnect grace window (`45000` ms in `src/unnamed/part_000`). -/
def graceWindowMs : Nat := 45000

/-- The `disconnect` handler of `src/unnamed/part_000`: no immediate
removal, only a pending timer keyed by the disconnecting id. -/
def disconnectEvent (st : ServerState) (pid : String) : ServerState :=
  { st with timers := if pid ∈ st.timers then st.timers else st.timers ++ [pid] }

/-- Firing of the timer keyed by `pid`: runs the removal, then deletes its
own timer entry.  A timer that has been cancelled (key absent) cannot fire. -/
def timerFire (st : ServerState) (pid : String) : ServerState :=
  if pid ∈ st.timers then
    { rooms := evictPlayer st.rooms pid,
      timers := st.timers.filter (fun t => !(t == pid)) }
  else st

/-- The `rejoin_room` handler of `src/unnamed/part_000`. -/
def rejoinRoom (st : ServerState) (code name newId : String) :
    ServerState × List (Dest × Msg) :=
  match lookupS st.rooms code with
  | none => (st, [(Dest.toPlayer newId, Msg.errorMessage "La sala ya no existe.")])
  | some room =>
    match (findIdxP (fun p => p.name == name) room.players).bind
        (fun i => (room.players.get? i).map (fun p => (i, p))) with
    | none =>
        (st, [(Dest.toPlayer newId,
          Msg.errorMessage "No se pudo recuperar la sesión.")])
    | some ip =>
      let timers1 := st.timers.filter (fun t => !(t == ip.2.id))
      let players1 := updateAt room.players ip.1 (fun p => { p with id := newId })
      let host1 := if room.host = ip.2.id then newId else room.host
      ({ rooms := updateRoom st.rooms code
           { room with players := players1, host := host1 },
         timers := timers1 },
       (Dest.toRoom, Msg.updatePlayers players1 (some host1)) ::
         (if room.gameState = "playing" then
            [(Dest.toPlayer newId, Msg.gameStarted ip.2.roleData)]
          else [(Dest.toPlayer newId, Msg.joinSuccess code)]))

/-- Lift a per-room operation to the store (`const room = rooms[roomCode];
if (!room) return;`). -/
def liftRoomOp (s : RoomStore) (code : String) (f : Room → Room) : RoomStore :=
  match lookupS s code with
  | none => s
  | some r => updateRoom s code (f r)

/-! ## Reachable server states -/

/-- States reachable from the empty server by the inbound events. -/
inductive Reachable : ServerState → Prop where
  | init : Reachable ⟨[], []⟩
  | create (st : ServerState) (code hostId hostName : String) :
      Reachable st → Reachable ⟨createRoom st.rooms code hostId hostName, st.timers⟩
  | join (st : ServerState) (code id name : String) :
      Reachable st → Reachable ⟨joinRoom st.rooms code id name, st.timers⟩
  | leave (st : ServerState) (code pid : String) :
      Reachable st → Reachable ⟨handlePlayerExit st.rooms code pid, st.timers⟩
  | rejoin (st : ServerState) (code name newId : String) :
      Reachable st → Reachable (rejoinRoom st code name newId).1
  | disconnect (st : ServerState) (pid : String) :
      Reachable st → Reachable (disconnectEvent st pid)
  | fire (st : ServerState) (pid : String) :
      Reachable st → Reachable (timerFire st pid)
  | start (st : ServerState) (code requester : String) (wd : Option WordData)
      (imps : List String) (sIdx : Nat) :
      Reachable st →
      Reachable ⟨liftRoomOp st.rooms code
        (fun r => (startGame r requester wd imps sIdx).1), st.timers⟩
  | vstart (st : ServerState) (code requester : String) :
      Reachable st →
      Reachable ⟨liftRoomOp st.rooms code
        (fun r => (startVoting r requester).1), st.timers⟩
  | vote (st : ServerState) (code voterId targetId : String) (rand : Nat) :
      Reachable st →
      Reachable ⟨liftRoomOp st.rooms code
        (fun r => (castVote r voterId targetId rand).1), st.timers⟩
  | reset (st : ServerState) (code requester : String) :
      Reachable st →
      Reachable ⟨liftRoomOp st.rooms code
        (fun r => (resetGame r requester).1), st.timers⟩

/-- The target invariant of claim C6, per room. -/
def RoomInv (r : Room) : Prop :=
  r.players ≠ [] ∧ r.host ∈ r.players.map (fun p => p.id)

/-- The target invariant of claim C6, over the store. -/
def StoreInv (s : RoomStore) : Prop :=
  ∀ e ∈ s, RoomInv e.2

end Impostor


namespace Impostor

/-! ## Lemmas about the generic list helpers -/

theorem lookupS_eq_none {β : Type} (l : List (String × β)) (k : String) :
    lookupS l k = none ↔ k ∉ l.map (fun e => e.1) := by
  induction l with
  | nil => simp [lookupS]
  | cons e rest ih =>
    rcases e with ⟨k', v⟩
    by_cases h : k' = k
    · simp [lookupS, h]
    · simp only [lookupS, h, if_false, List.map_cons, List.mem_cons, ih]
      constructor
      · rintro hk hx
        rcases hx with hx | hx
        · exact h hx.symm
        · exact hk hx
      · intro hk
        exact fun hx => hk (Or.inr hx)

theorem updateAt_length {α : Type} (f : α → α) :
    ∀ (l : List α) (i : Nat), (updateAt l i f).length = l.length := by
  intro l
  induction l with
  | nil => intro i; simp [updateAt]
  | cons a rest ih =>
    intro i
    cases i with
    | zero => simp [updateAt]
    | succ n => simp [updateAt, ih]

theorem updateAt_get_self {α : Type} (f : α → α) :
    ∀ (l : List α) (i : Nat) (a : α), l.get? i = some a →
      (updateAt l i f).get? i = some (f a) := by
  intro l
  induction l with
  | nil => intro i a h; simp at h
  | cons b rest ih =>
    intro i a h
    cases i with
    | zero =>
      rw [List.get?_cons_zero] at h
      injection h with h
      subst h
      simp [updateAt]
    | succ n =>
      rw [List.get?_cons_succ] at h
      rw [show updateAt (b :: rest) (n + 1) f = b :: updateAt rest n f from rfl,
        List.get?_cons_succ]
      exact ih n a h

theorem map_updateAt_of_eq {α β : Type} (g : α → β) (f : α → α)
    (hf : ∀ a, g (f a) = g a) :
    ∀ (l : List α) (i : Nat), (updateAt l i f).map g = l.map g := by
  intro l
  induction l with
  | nil => intro i; simp [updateAt]
  | cons a rest ih =>
    intro i
    cases i with
    | zero => simp [updateAt, hf]
    | succ n => simp [updateAt, ih]

theorem mem_map_updateAt {α β : Type} (g : α → β) (f : α → α) :
    ∀ (l : List α) (i : Nat) (a : α) (x : β), l.get? i = some a →
      x ∈ l.map g → g a ≠ x → x ∈ (updateAt l i f).map g := by
  intro l
  induction l with
  | nil => intro i a x h; simp at h
  | cons b rest ih =>
    intro i a x hget hmem hne
    cases i with
    | zero =>
      rw [List.get?_cons_zero] at hget
      injection hget with hget
      subst hget
      simp only [List.map_cons, List.mem_cons] at hmem
      rcases hmem with hmem | hmem
      · exact absurd hmem.symm hne
      · simp [updateAt, List.mem_cons, hmem]
    | succ n =>
      rw [List.get?_cons_succ] at hget
      simp only [List.map_cons, List.mem_cons] at hmem
      rcases hmem with hmem | hmem
      · simp [updateAt, List.mem_cons, hmem]
      · simpa [updateAt, List.mem_cons] using Or.inr (ih n a x hget hmem hne)

theorem mem_map_removeAt {α β : Type} (g : α → β) :
    ∀ (l : List α) (i : Nat) (a : α) (x : β), l.get? i = some a →
      x ∈ l.map g → g a ≠ x → x ∈ (removeAt l i).map g := by
  intro l
  induction l with
  | nil => intro i a x h; simp at h
  | cons b rest ih =>
    intro i a x hget hmem hne
    cases i with
    | zero =>
      rw [List.get?_cons_zero] at hget
      injection hget with hget
      subst hget
      simp only [List.map_cons, List.mem_cons] at hmem
      rcases hmem with hmem | hmem
      · exact absurd hmem.symm hne
      · simpa [removeAt] using hmem
    | succ n =>
      rw [List.get?_cons_succ] at hget
      simp only [List.map_cons, List.mem_cons] at hmem
      rcases hmem with hmem | hmem
      · simp [removeAt, List.mem_cons, hmem]
      · simpa [removeAt, List.mem_cons] using Or.inr (ih n a x hget hmem hne)

theorem findIdxP_some_get {α : Type} (p : α → Bool) :
    ∀ (l : List α) (i : Nat), findIdxP p l = some i →
      ∃ a, l.get? i = some a ∧ p a = true := by
  intro l
  induction l with
  | nil => intro i h; simp [findIdxP] at h
  | cons b rest ih =>
    intro i h
    by_cases hb : p b
    · simp [findIdxP, hb] at h
      subst h
      exact ⟨b, by simp, hb⟩
    · simp [findIdxP, hb] at h
      rcases h with ⟨n, hn, rfl⟩
      rcases ih n hn with ⟨a, ha, hpa⟩
      refine ⟨a, ?_, hpa⟩
      rw [List.get?_cons_succ]
      exact ha

theorem findP_some {α : Type} (p : α → Bool) :
    ∀ (l : List α) (a : α), findP p l = some a → a ∈ l ∧ p a = true := by
  intro l
  induction l with
  | nil => intro a h; simp [findP] at h
  | cons b rest ih =>
    intro a h
    by_cases hb : p b
    · simp [findP, hb] at h
      subst h
      exact ⟨List.mem_cons_self b rest, hb⟩
    · simp [findP, hb] at h
      rcases ih a h with ⟨hmem, hpa⟩
      exact ⟨List.mem_cons_of_mem b hmem, hpa⟩

/-! ## Lemmas about vote tallying -/

theorem countVal_bump_self (t : List (String × Nat)) (k : String) :
    countVal (bump t k) k = countVal t k + 1 := by
  induction t with
  | nil => simp [bump, countVal, lookupS]
  | cons e rest ih =>
    rcases e with ⟨k', n⟩
    by_cases h : k' = k
    · simp [bump, countVal, lookupS, h]
    · simpa [bump, countVal, lookupS, h] using ih

theorem countVal_bump_ne (t : List (String × Nat)) (k j : String) (h : j ≠ k) :
    countVal (bump t k) j = countVal t j := by
  induction t with
  | nil => simp [bump, countVal, lookupS, Ne.symm h]
  | cons e rest ih =>
    rcases e with ⟨k', n⟩
    by_cases he : k' = k
    · subst he
      simp [bump, countVal, lookupS, Ne.symm h]
    · by_cases hj : k' = j
      · simp [bump, countVal, lookupS, he, hj, h]
      · simpa [bump, countVal, lookupS, he, hj] using ih

theorem countVal_foldl_bump (k : String) :
    ∀ (votes : List (String × String)) (acc : List (String × Nat)),
      countVal (votes.foldl (fun t v => bump t v.2) acc) k =
        countVal acc k + (votes.filter (fun v => v.2 == k)).length := by
  intro votes
  induction votes with
  | nil => intro acc; simp
  | cons v rest ih =>
    intro acc
    by_cases hv : v.2 = k
    · rw [List.foldl_cons, ih, hv, countVal_bump_self]
      have hb : (v.2 == k) = true := by simp [hv]
      rw [List.filter_cons, hb]
      simp only [if_true, List.length_cons]
      omega
    · rw [List.foldl_cons, ih, countVal_bump_ne _ _ _ (fun hh => hv hh.symm)]
      have hb : (v.2 == k) = false := by simp [hv]
      rw [List.filter_cons, hb]
      simp

/-- The tally object counts, for every target, the number of votes naming it. -/
theorem tallies_countVal (votes : List (String × String)) (k : String) :
    countVal (tallies votes) k = (votes.filter (fun v => v.2 == k)).length := by
  have := countVal_foldl_bump k votes []
  simpa [tallies, countVal, lookupS] using this

/-- Characterization of the `maxVotes` scan: when it returns a target that
is not the seed, the tally list splits around that target's entry, every
earlier entry has a strictly smaller count and every later entry has a
smaller-or-equal count. -/
theorem findMostVotedAux_spec :
    ∀ (t : List (String × Nat)) (m : Int) (e : Option String) (v : String),
      (findMostVotedAux t (m, e)).2 = some v →
      (e = some v ∧ ∀ x ∈ t, (x.2 : Int) ≤ m) ∨
      (∃ (c : Nat) (l₁ l₂ : List (String × Nat)), t = l₁ ++ (v, c) :: l₂ ∧
        m < (c : Int) ∧ (∀ x ∈ l₁, x.2 < c) ∧ (∀ x ∈ l₂, x.2 ≤ c)) := by
  intro t
  induction t with
  | nil =>
    intro m e v h
    simp [findMostVotedAux] at h
    exact Or.inl ⟨h, by simp⟩
  | cons x rest ih =>
    rcases x with ⟨k, c0⟩
    intro m e v h
    by_cases hx : (c0 : Int) > m
    · rw [show findMostVotedAux ((k, c0) :: rest) (m, e) =
          findMostVotedAux rest ((c0 : Int), some k) from by
        simp [findMostVotedAux, hx]] at h
      rcases ih (c0 : Int) (some k) v h with ⟨h1, h2⟩ |
        ⟨c, l₁, l₂, hrest, hc, hl₁, hl₂⟩
      · injection h1 with h1
        subst h1
        refine Or.inr ⟨c0, [], rest, by simp, hx, by simp, ?_⟩
        intro y hy
        exact_mod_cast h2 y hy
      · refine Or.inr ⟨c, (k, c0) :: l₁, l₂, by rw [hrest]; rfl,
          lt_trans hx hc, ?_, hl₂⟩
        intro y hy
        rcases List.mem_cons.mp hy with rfl | hy
        · exact_mod_cast hc
        · exact hl₁ y hy
    · rw [show findMostVotedAux ((k, c0) :: rest) (m, e) =
          findMostVotedAux rest (m, e) from by simp [findMostVotedAux, hx]] at h
      rcases ih m e v h with ⟨h1, h2⟩ | ⟨c, l₁, l₂, hrest, hc, hl₁, hl₂⟩
      · refine Or.inl ⟨h1, ?_⟩
        intro y hy
        rcases List.mem_cons.mp hy with rfl | hy
        · exact le_of_not_lt hx
        · exact h2 y hy
      · refine Or.inr ⟨c, (k, c0) :: l₁, l₂, by rw [hrest]; rfl, hc, ?_, hl₂⟩
        intro y hy
        rcases List.mem_cons.mp hy with rfl | hy
        · have hcc : (c0 : Int) < (c : Int) := lt_of_le_of_lt (le_of_not_lt hx) hc
          exact_mod_cast hcc
        · exact hl₁ y hy

/-- The scan started from the sentinel `(-1, null)` returns the first entry
of maximal count when it returns anything. -/
theorem findMostVoted_spec (t : List (String × Nat)) (v : String)
    (h : findMostVoted t = some v) :
    ∃ (c : Nat) (l₁ l₂ : List (String × Nat)), t = l₁ ++ (v, c) :: l₂ ∧
      (∀ x ∈ l₁, x.2 < c) ∧ (∀ x ∈ l₂, x.2 ≤ c) := by
  have h' : (findMostVotedAux t (-1, none)).2 = some v := h
  rcases findMostVotedAux_spec t (-1) none v h' with ⟨h1, _⟩ |
    ⟨c, l₁, l₂, ht, _, hl₁, hl₂⟩
  · simp at h1
  · exact ⟨c, l₁, l₂, ht, hl₁, hl₂⟩

end Impostor

namespace Impostor

/-! ## Unfolding equations for the operations -/

theorem castVote_notVoting (room : Room) (voterId targetId : String) (rand : Nat)
    (h : room.gameState ≠ "voting") :
    castVote room voterId targetId rand = (room, []) := by
  unfold castVote
  rw [if_pos h]

theorem castVote_noVoter (room : Room) (voterId targetId : String) (rand : Nat)
    (h1 : room.gameState = "voting")
    (h2 : findP (fun p => p.id == voterId) room.players = none) :
    castVote room voterId targetId rand = (room, []) := by
  unfold castVote
  rw [if_neg (by simp [h1]), h2]

theorem castVote_deadVoter (room : Room) (voterId targetId : String) (rand : Nat)
    (voter : Player) (h1 : room.gameState = "voting")
    (h2 : findP (fun p => p.id == voterId) room.players = some voter)
    (h3 : voter.isDead = true) :
    castVote room voterId targetId rand = (room, []) := by
  unfold castVote
  rw [if_neg (by simp [h1]), h2]
  simp [h3]

theorem castVote_blocked (room : Room) (voterId targetId : String) (rand : Nat)
    (voter : Player) (h1 : room.gameState = "voting")
    (h2 : findP (fun p => p.id == voterId) room.players = some voter)
    (h3 : voter.isDead = false) (h4 : voteBlocks room.votes voterId = true) :
    castVote room voterId targetId rand = (room, []) := by
  unfold castVote
  rw [if_neg (by simp [h1]), h2]
  simp [h3, h4]

theorem castVote_recorded (room : Room) (voterId targetId : String) (rand : Nat)
    (voter : Player) (h1 : room.gameState = "voting")
    (h2 : findP (fun p => p.id == voterId) room.players = some voter)
    (h3 : voter.isDead = false) (h4 : voteBlocks room.votes voterId = false) :
    castVote room voterId targetId rand =
      (if (setVote room.votes voterId targetId).length ≥
          (livingPlayers room.players).length
       then processVotingResult
         { room with votes := setVote room.votes voterId targetId } rand
       else ({ room with votes := setVote room.votes voterId targetId }, [])) := by
  unfold castVote
  rw [if_neg (by simp [h1]), h2]
  simp [h3, h4]

theorem processVotingResult_found (room : Room) (rand : Nat) (idx : Nat)
    (victim : Player)
    (h : (findIdxP (fun p => some p.id == findMostVoted (tallies room.votes))
        room.players).bind (fun i => (room.players.get? i).map (fun v => (i, v))) =
        some (idx, victim)) :
    processVotingResult room rand =
      resolveElimination room
        (updateAt room.players idx (fun p => { p with isDead := true })) victim rand := by
  unfold processVotingResult
  rw [h]

theorem processVotingResult_notFound (room : Room) (rand : Nat)
    (h : (findIdxP (fun p => some p.id == findMostVoted (tallies room.votes))
        room.players).bind (fun i => (room.players.get? i).map (fun v => (i, v))) =
        none) :
    processVotingResult room rand =
      ({ room with gameState := "playing", votes := [] },
       [(Dest.toRoom,
         Msg.nextRound ((((livingPlayers room.players).get? 0).map
           (fun p => p.name)).getD ""))]) := by
  unfold processVotingResult
  rw [h]

theorem resolveElimination_citizens (room : Room) (players1 : List Player)
    (victim : Player) (rand : Nat)
    (h : (livingImpostors players1).length = 0) :
    resolveElimination room players1 victim rand =
      (resetRoomToLobby { room with players := players1 },
       elimMsgList players1 victim (isImpostorP victim) ++ [(Dest.toRoom,
         Msg.gameOver "citizen" (citizenWinReason victim.name) [victim.name])]) := by
  unfold resolveElimination
  rw [if_pos h]

theorem resolveElimination_impostors (room : Room) (players1 : List Player)
    (victim : Player) (rand : Nat)
    (h1 : (livingImpostors players1).length ≠ 0)
    (h2 : (livingImpostors players1).length ≥
      (livingPlayers players1).length - (livingImpostors players1).length) :
    resolveElimination room players1 victim rand =
      (resetRoomToLobby { room with players := players1 },
       elimMsgList players1 victim (isImpostorP victim) ++ [(Dest.toRoom,
         Msg.gameOver "impostor" impostorWinReason
           ((players1.filter (fun p => isImpostorP p)).map (fun p => p.name)))]) := by
  unfold resolveElimination
  rw [if_neg h1, if_pos h2]

theorem resolveElimination_nextRound (room : Room) (players1 : List Player)
    (victim : Player) (rand : Nat)
    (h1 : (livingImpostors players1).length ≠ 0)
    (h2 : ¬ (livingImpostors players1).length ≥
      (livingPlayers players1).length - (livingImpostors players1).length) :
    resolveElimination room players1 victim rand =
      ({ room with players := players1, gameState := "playing", votes := [] },
       elimMsgList players1 victim (isImpostorP victim) ++ [(Dest.toRoom,
         Msg.nextRound ((((livingPlayers players1).get?
           (rand % (livingPlayers players1).length)).map (fun p => p.name)).getD ""))]) := by
  unfold resolveElimination
  rw [if_neg h1, if_neg h2]

theorem startGame_notHost (room : Room) (requester : String) (wd : Option WordData)
    (imps : List String) (sIdx : Nat) (h : room.host ≠ requester) :
    startGame room requester wd imps sIdx = (room, []) := by
  unfold startGame
  rw [if_pos h]

theorem startGame_noData (room : Room) (requester : String)
    (imps : List String) (sIdx : Nat) :
    startGame room requester none imps sIdx = (room, []) := by
  unfold startGame
  split
  · rfl
  · rfl

theorem startGame_invalid (room : Room) (requester : String) (wd : Option WordData)
    (imps : List String) (sIdx : Nat) (h : wordDataValid wd = false) :
    startGame room requester wd imps sIdx = (room, []) := by
  unfold startGame
  split
  · rfl
  · cases wd with
    | none => rfl
    | some w =>
      rcases w with ⟨ow, oc, oh⟩
      cases ow with
      | none => rfl
      | some ww =>
        cases oc with
        | none => rfl
        | some cc => simp [wordDataValid] at h

theorem startGame_ok (room : Room) (requester w c : String) (hint : Option String)
    (imps : List String) (sIdx : Nat) (h : room.host = requester) :
    startGame room requester (some ⟨some w, some c, hint⟩) imps sIdx =
      ({ room with
           gameState := "playing"
           players := room.players.map (fun p =>
             { p with roleData := some (assignRole imps w c hint
               (startingName room.players sIdx) p) }) },
       room.players.map (fun p =>
         (Dest.toPlayer p.id,
          Msg.gameStarted (some (assignRole imps w c hint
            (startingName room.players sIdx) p))))) := by
  unfold startGame
  rw [if_neg (by simp [h])]

theorem handlePlayerExit_noRoom (s : RoomStore) (code pid : String)
    (h : lookupS s code = none) : handlePlayerExit s code pid = s := by
  unfold handlePlayerExit
  rw [h]

theorem handlePlayerExit_noPlayer (s : RoomStore) (code pid : String) (room : Room)
    (h : lookupS s code = some room)
    (hi : findIdxP (fun p => p.id == pid) room.players = none) :
    handlePlayerExit s code pid = s := by
  unfold handlePlayerExit
  simp only [h, hi]

theorem handlePlayerExit_found (s : RoomStore) (code pid : String) (room : Room)
    (i : Nat) (h : lookupS s code = some room)
    (hi : findIdxP (fun p => p.id == pid) room.players = some i) :
    handlePlayerExit s code pid =
      (if (removeAt room.players i).length = 0 then deleteRoom s code
       else updateRoom s code
         { room with
             players := removeAt room.players i
             host := if room.host = pid then
                       (((removeAt room.players i).get? 0).map (fun p => p.id)).getD ""
                     else room.host }) := by
  unfold handlePlayerExit
  simp only [h, hi]

theorem rejoinRoom_noRoom (st : ServerState) (code name newId : String)
    (h : lookupS st.rooms code = none) :
    rejoinRoom st code name newId =
      (st, [(Dest.toPlayer newId, Msg.errorMessage "La sala ya no existe.")]) := by
  unfold rejoinRoom
  rw [h]

theorem rejoinRoom_noMatch (st : ServerState) (code name newId : String) (room : Room)
    (h : lookupS st.rooms code = some room)
    (hm : (findIdxP (fun p => p.name == name) room.players).bind
        (fun i => (room.players.get? i).map (fun p => (i, p))) = none) :
    rejoinRoom st code name newId =
      (st, [(Dest.toPlayer newId,
        Msg.errorMessage "No se pudo recuperar la sesión.")]) := by
  unfold rejoinRoom
  simp only [h, hm]

theorem rejoinRoom_found (st : ServerState) (code name newId : String) (room : Room)
    (i : Nat) (p : Player) (h : lookupS st.rooms code = some room)
    (hm : (findIdxP (fun q => q.name == name) room.players).bind
        (fun j => (room.players.get? j).map (fun q => (j, q))) = some (i, p)) :
    rejoinRoom st code name newId =
      ({ rooms := updateRoom st.rooms code
           { room with
               players := updateAt room.players i (fun q => { q with id := newId })
               host := if room.host = p.id then newId else room.host },
         timers := st.timers.filter (fun t => !(t == p.id)) },
       (Dest.toRoom, Msg.updatePlayers
          (updateAt room.players i (fun q => { q with id := newId }))
          (some (if room.host = p.id then newId else room.host))) ::
         (if room.gameState = "playing" then
            [(Dest.toPlayer newId, Msg.gameStarted p.roleData)]
          else [(Dest.toPlayer newId, Msg.joinSuccess code)])) := by
  unfold rejoinRoom
  simp only [h, hm]

end Impostor

namespace Impostor

/-! ## Store lemmas -/

theorem mem_map_of_get {α β : Type} (g : α → β) :
    ∀ (l : List α) (i : Nat) (a : α), l.get? i = some a → g a ∈ l.map g := by
  intro l
  induction l with
  | nil => intro i a h; simp at h
  | cons b rest ih =>
    intro i a h
    cases i with
    | zero =>
      rw [List.get?_cons_zero] at h
      injection h with h
      subst h
      simp
    | succ n =>
      rw [List.get?_cons_succ] at h
      simpa using Or.inr (ih n a h)

theorem lookupS_mem {β : Type} :
    ∀ (l : List (String × β)) (k : String) (v : β),
      lookupS l k = some v → (k, v) ∈ l := by
  intro l
  induction l with
  | nil => intro k v h; simp [lookupS] at h
  | cons e rest ih =>
    intro k v h
    rcases e with ⟨k', v'⟩
    by_cases hk : k' = k
    · subst hk
      simp [lookupS] at h
      subst h
      simp
    · simp [lookupS, hk] at h
      simpa using Or.inr (ih k v h)

theorem lookupS_updateRoom (s : RoomStore) (code : String) (r r₀ : Room)
    (h : lookupS s code = some r₀) :
    lookupS (updateRoom s code r) code = some r := by
  induction s with
  | nil => simp [lookupS] at h
  | cons e rest ih =>
    rcases e with ⟨k', v'⟩
    by_cases hk : k' = code
    · subst hk
      simp only [updateRoom, List.map_cons, if_pos rfl]
      simp [lookupS]
    · simp only [updateRoom, List.map_cons, if_neg hk]
      have h' : lookupS rest code = some r₀ := by
        simpa [lookupS, hk] using h
      have hres := ih h'
      simp only [updateRoom] at hres
      simpa [lookupS, hk] using hres

theorem updateRoom_keys (s : RoomStore) (code : String) (r : Room) :
    (updateRoom s code r).map (fun e => e.1) = s.map (fun e => e.1) := by
  induction s with
  | nil => simp [updateRoom]
  | cons e rest ih =>
    by_cases hk : e.1 = code
    · simp only [updateRoom, List.map_cons, if_pos hk]
      simp only [updateRoom] at ih
      simp [ih, hk]
    · simp only [updateRoom, List.map_cons, if_neg hk]
      simp only [updateRoom] at ih
      simp [ih]

theorem liftRoomOp_keys (s : RoomStore) (code : String) (f : Room → Room) :
    (liftRoomOp s code f).map (fun e => e.1) = s.map (fun e => e.1) := by
  unfold liftRoomOp
  cases h : lookupS s code with
  | none => rfl
  | some r => exact updateRoom_keys s code (f r)

theorem storeInv_updateRoom (s : RoomStore) (code : String) (r : Room)
    (hs : StoreInv s) (hr : RoomInv r) : StoreInv (updateRoom s code r) := by
  intro e he
  rcases List.mem_map.mp he with ⟨e₀, he₀, hmap⟩
  by_cases h : e₀.1 = code
  · simp only [h, if_true] at hmap
    rw [← hmap]
    exact hr
  · simp only [h, if_false] at hmap
    rw [← hmap]
    exact hs e₀ he₀

theorem storeInv_deleteRoom (s : RoomStore) (code : String)
    (hs : StoreInv s) : StoreInv (deleteRoom s code) := by
  intro e he
  exact hs e (List.mem_of_mem_filter he)

theorem storeInv_append (s : RoomStore) (code : String) (r : Room)
    (hs : StoreInv s) (hr : RoomInv r) : StoreInv (s ++ [(code, r)]) := by
  intro e he
  rcases List.mem_append.mp he with he | he
  · exact hs e he
  · simp at he
    rw [he]
    exact hr

end Impostor

namespace Impostor

/-! ## Per-operation invariant preservation -/

theorem roomInv_of_frame (r r' : Room)
    (hid : r'.players.map (fun p => p.id) = r.players.map (fun p => p.id))
    (hhost : r'.host = r.host) (h : RoomInv r) : RoomInv r' := by
  constructor
  · intro hnil
    have hlen := congrArg List.length hid
    simp [hnil] at hlen
    exact h.1 (List.length_eq_zero.mp hlen.symm)
  · rw [hhost, hid]
    exact h.2

theorem createRoom_inv (s : RoomStore) (code hostId hostName : String)
    (hs : StoreInv s) : StoreInv (createRoom s code hostId hostName) := by
  unfold createRoom
  by_cases h1 : hostName = ""
  · simpa [h1] using hs
  · by_cases h2 : (lookupS s code).isSome
    · simpa [h1, h2] using hs
    · simp only [h1, h2, if_false, if_true]
      refine storeInv_append s code _ hs ?_
      constructor
      · simp
      · simp

theorem joinRoom_inv (s : RoomStore) (code id name : String)
    (hs : StoreInv s) : StoreInv (joinRoom s code id name) := by
  unfold joinRoom
  by_cases h1 : name = ""
  · simpa [h1] using hs
  · simp only [h1, if_false]
    cases hl : lookupS s code with
    | none => exact hs
    | some room =>
      have hroom : RoomInv room := hs (code, room) (lookupS_mem s code room hl)
      by_cases h2 : room.gameState ≠ "lobby"
      · simpa [h2] using hs
      · by_cases h3 : room.players.length ≥ 12
        · simpa [h2, h3] using hs
        · by_cases h4 : room.players.any (fun p => p.name.toLower == name.toLower)
          · simpa [h2, h3, h4] using hs
          · simp only [h2, h3, h4, if_false, if_true]
            refine storeInv_updateRoom s code _ hs ?_
            constructor
            · simp
            · simpa using Or.inl hroom.2

theorem handlePlayerExit_inv (s : RoomStore) (code pid : String)
    (hs : StoreInv s) : StoreInv (handlePlayerExit s code pid) := by
  cases hl : lookupS s code with
  | none => rw [handlePlayerExit_noRoom s code pid hl]; exact hs
  | some room =>
    cases hi : findIdxP (fun p => p.id == pid) room.players with
    | none => rw [handlePlayerExit_noPlayer s code pid room hl hi]; exact hs
    | some i =>
      rw [handlePlayerExit_found s code pid room i hl hi]
      rcases findIdxP_some_get _ room.players i hi with ⟨victim, hget, hvic⟩
      have hvid : victim.id = pid := by simpa using hvic
      have hroom : RoomInv room := hs (code, room) (lookupS_mem s code room hl)
      by_cases hrem : (removeAt room.players i).length = 0
      · rw [if_pos hrem]
        exact storeInv_deleteRoom s code hs
      · rw [if_neg hrem]
        refine storeInv_updateRoom s code _ hs ?_
        have hne : removeAt room.players i ≠ [] := by
          intro hnil
          exact hrem (by simp [hnil])
        refine ⟨hne, ?_⟩
        show (if room.host = pid then
            (((removeAt room.players i).get? 0).map (fun p => p.id)).getD ""
          else room.host) ∈ (removeAt room.players i).map (fun p => p.id)
        by_cases hh : room.host = pid
        · rw [if_pos hh]
          cases hc : removeAt room.players i with
          | nil => exact absurd hc hne
          | cons p0 rest => simp [hc]
        · rw [if_neg hh]
          refine mem_map_removeAt (fun p => p.id) room.players i victim room.host
            hget hroom.2 ?_
          intro hcon
          exact hh (hcon.symm.trans hvid)

theorem evictPlayer_inv (s : RoomStore) (pid : String)
    (hs : StoreInv s) : StoreInv (evictPlayer s pid) := by
  unfold evictPlayer
  cases h : findRoomOf s pid with
  | none => exact hs
  | some code => exact handlePlayerExit_inv s code pid hs

theorem resolveElimination_frame (room : Room) (players1 : List Player)
    (victim : Player) (rand : Nat) :
    ((resolveElimination room players1 victim rand).1).players.map (fun p => p.id) =
      players1.map (fun p => p.id) ∧
    ((resolveElimination room players1 victim rand).1).host = room.host := by
  unfold resolveElimination
  split
  · refine ⟨?_, rfl⟩
    show ((players1.map (fun p => { p with isDead := false, roleData := none })).map
      (fun p => p.id)) = players1.map (fun p => p.id)
    rw [List.map_map]
    rfl
  · split
    · refine ⟨?_, rfl⟩
      show ((players1.map (fun p => { p with isDead := false, roleData := none })).map
        (fun p => p.id)) = players1.map (fun p => p.id)
      rw [List.map_map]
      rfl
    · exact ⟨rfl, rfl⟩

theorem processVotingResult_frame (room : Room) (rand : Nat) :
    ((processVotingResult room rand).1).players.map (fun p => p.id) =
      room.players.map (fun p => p.id) ∧
    ((processVotingResult room rand).1).host = room.host := by
  cases hm : (findIdxP (fun p => some p.id == findMostVoted (tallies room.votes))
      room.players).bind (fun i => (room.players.get? i).map (fun v => (i, v))) with
  | none => rw [processVotingResult_notFound room rand hm]; exact ⟨rfl, rfl⟩
  | some iv =>
    rcases iv with ⟨idx, victim⟩
    rw [processVotingResult_found room rand idx victim hm]
    have hf := resolveElimination_frame room
      (updateAt room.players idx (fun p => { p with isDead := true })) victim rand
    refine ⟨?_, hf.2⟩
    rw [hf.1]
    exact map_updateAt_of_eq (fun p => p.id)
      (fun p => { p with isDead := true }) (fun a => rfl) room.players idx

theorem processVotingResult_roomInv (room : Room) (rand : Nat)
    (h : RoomInv room) : RoomInv (processVotingResult room rand).1 :=
  roomInv_of_frame room _ (processVotingResult_frame room rand).1
    (processVotingResult_frame room rand).2 h

theorem castVote_roomInv (room : Room) (voterId targetId : String) (rand : Nat)
    (h : RoomInv room) : RoomInv (castVote room voterId targetId rand).1 := by
  by_cases h1 : room.gameState = "voting"
  case neg => rw [castVote_notVoting room voterId targetId rand h1]; exact h
  case pos =>
    cases hf : findP (fun p => p.id == voterId) room.players with
    | none => rw [castVote_noVoter room voterId targetId rand h1 hf]; exact h
    | some voter =>
      cases hdead : voter.isDead with
      | true =>
        rw [castVote_deadVoter room voterId targetId rand voter h1 hf hdead]
        exact h
      | false =>
        cases hb : voteBlocks room.votes voterId with
        | true =>
          rw [castVote_blocked room voterId targetId rand voter h1 hf hdead hb]
          exact h
        | false =>
          rw [castVote_recorded room voterId targetId rand voter h1 hf hdead hb]
          split
          · exact processVotingResult_roomInv _ rand ⟨h.1, h.2⟩
          · exact ⟨h.1, h.2⟩

theorem startGame_frame (room : Room) (requester : String) (wd : Option WordData)
    (imps : List String) (sIdx : Nat) :
    ((startGame room requester wd imps sIdx).1).players.map (fun p => p.id) =
      room.players.map (fun p => p.id) ∧
    ((startGame room requester wd imps sIdx).1).host = room.host := by
  by_cases h1 : room.host ≠ requester
  · rw [startGame_notHost room requester wd imps sIdx h1]; exact ⟨rfl, rfl⟩
  · push_neg at h1
    cases wd with
    | none => rw [startGame_noData room requester imps sIdx]; exact ⟨rfl, rfl⟩
    | some w =>
      rcases w with ⟨ow, oc, oh⟩
      cases ow with
      | none =>
        rw [startGame_invalid room requester _ imps sIdx (by simp [wordDataValid])]
        exact ⟨rfl, rfl⟩
      | some ww =>
        cases oc with
        | none =>
          rw [startGame_invalid room requester _ imps sIdx (by simp [wordDataValid])]
          exact ⟨rfl, rfl⟩
        | some cc =>
          rw [startGame_ok room requester ww cc oh imps sIdx h1]
          refine ⟨?_, rfl⟩
          rw [List.map_map]
          rfl

theorem startGame_roomInv (room : Room) (requester : String) (wd : Option WordData)
    (imps : List String) (sIdx : Nat)
    (h : RoomInv room) : RoomInv (startGame room requester wd imps sIdx).1 :=
  roomInv_of_frame room _ (startGame_frame room requester wd imps sIdx).1
    (startGame_frame room requester wd imps sIdx).2 h

theorem startVoting_roomInv (room : Room) (requester : String)
    (h : RoomInv room) : RoomInv (startVoting room requester).1 := by
  unfold startVoting
  split
  · exact h
  · split
    · exact h
    · exact ⟨h.1, h.2⟩

theorem resetGame_roomInv (room : Room) (requester : String)
    (h : RoomInv room) : RoomInv (resetGame room requester).1 := by
  unfold resetGame
  split
  · exact ⟨h.1, h.2⟩
  · exact h

theorem liftRoomOp_inv (s : RoomStore) (code : String) (f : Room → Room)
    (hf : ∀ r, RoomInv r → RoomInv (f r)) (hs : StoreInv s) :
    StoreInv (liftRoomOp s code f) := by
  unfold liftRoomOp
  cases hl : lookupS s code with
  | none => exact hs
  | some r =>
    exact storeInv_updateRoom s code (f r) hs
      (hf r (hs (code, r) (lookupS_mem s code r hl)))

theorem rejoinRoom_inv (st : ServerState) (code name newId : String)
    (hs : StoreInv st.rooms) :
    StoreInv ((rejoinRoom st code name newId).1).rooms := by
  cases hl : lookupS st.rooms code with
  | none => rw [rejoinRoom_noRoom st code name newId hl]; exact hs
  | some room =>
    cases hm : (findIdxP (fun q => q.name == name) room.players).bind
        (fun j => (room.players.get? j).map (fun q => (j, q))) with
    | none => rw [rejoinRoom_noMatch st code name newId room hl hm]; exact hs
    | some ip =>
      rcases ip with ⟨i, p⟩
      rw [rejoinRoom_found st code name newId room i p hl hm]
      have hroom : RoomInv room := hs (code, room) (lookupS_mem st.rooms code room hl)
      rcases Option.bind_eq_some.mp hm with ⟨j, hj, hmap⟩
      rcases Option.map_eq_some'.mp hmap with ⟨q, hq, hpair⟩
      injection hpair with hji hqp
      subst hji
      rw [hqp] at hq
      refine storeInv_updateRoom st.rooms code _ hs ⟨?_, ?_⟩
      · intro hnil
        have hnil' : updateAt room.players j (fun q => { q with id := newId }) = [] :=
          hnil
        have hlen := updateAt_length (fun q : Player => { q with id := newId })
          room.players j
        rw [hnil'] at hlen
        exact hroom.1 (List.length_eq_zero.mp (by simpa using hlen.symm))
      · show (if room.host = p.id then newId else room.host) ∈
          (updateAt room.players j (fun q => { q with id := newId })).map
            (fun q => q.id)
        by_cases hh : room.host = p.id
        · rw [if_pos hh]
          exact mem_map_of_get (fun q => q.id) _ j _
            (updateAt_get_self (fun q : Player => { q with id := newId })
              room.players j p hq)
        · rw [if_neg hh]
          exact mem_map_updateAt (fun q => q.id) _ room.players j p room.host
            hq hroom.2 (fun hcon => hh hcon.symm)

theorem timerFire_inv (st : ServerState) (pid : String)
    (hs : StoreInv st.rooms) : StoreInv ((timerFire st pid).rooms) := by
  unfold timerFire
  split
  · exact evictPlayer_inv st.rooms pid hs
  · exact hs

/-- Every reachable server state satisfies the room invariant. -/
theorem reachable_storeInv (st : ServerState) (h : Reachable st) :
    StoreInv st.rooms := by
  induction h with
  | init => intro e he; simp at he
  | create st code hostId hostName _ ih => exact createRoom_inv _ _ _ _ ih
  | join st code id name _ ih => exact joinRoom_inv _ _ _ _ ih
  | leave st code pid _ ih => exact handlePlayerExit_inv _ _ _ ih
  | rejoin st code name newId _ ih => exact rejoinRoom_inv _ _ _ _ ih
  | disconnect st pid _ ih => exact ih
  | fire st pid _ ih => exact timerFire_inv _ _ ih
  | start st code requester wd imps sIdx _ ih =>
      exact liftRoomOp_inv _ _ _
        (fun r hr => startGame_roomInv r requester wd imps sIdx hr) ih
  | vstart st code requester _ ih =>
      exact liftRoomOp_inv _ _ _ (fun r hr => startVoting_roomInv r requester hr) ih
  | vote st code voterId targetId rand _ ih =>
      exact liftRoomOp_inv _ _ _
        (fun r hr => castVote_roomInv r voterId targetId rand hr) ih
  | reset st code requester _ ih =>
      exact liftRoomOp_inv _ _ _ (fun r hr => resetGame_roomInv r requester hr) ih

end Impostor

namespace Impostor

/-! ## Concrete fixtures for counterexamples and witnesses -/

/-- A two-player room in the `voting` phase. -/
def roomV : Room :=
  { host := "a",
    players := [{ id := "a", name := "A" }, { id := "b", name := "B" }],
    gameState := "voting", votes := [] }

/-- A two-player lobby room. -/
def roomL : Room :=
  { host := "a",
    players := [{ id := "a", name := "A" }, { id := "b", name := "B" }],
    gameState := "lobby", votes := [] }

/-- A complete `wordData` payload. -/
def wdOk : Option WordData :=
  some { word := some "sol", category := some "astro", hint := some "brilla" }

/-- A citizen role payload used in fixtures. -/
def rdCit : RoleData :=
  { role := "citizen", word := some "sol", category := "astro",
    impostorHint := none, startingPlayer := "A" }

/-- A voting-phase room carrying a dead player, a stale vote and stale
role data. -/
def roomDirty : Room :=
  { host := "a",
    players := [{ id := "a", name := "A", isDead := true, roleData := some rdCit },
                { id := "b", name := "B" }],
    gameState := "voting", votes := [("a", "b")] }

/-! ## Claim C2 -/

/-- C2 counterexample: `start_game` performs no phase check, so a host
`startGame` issued while the room is in the `voting` phase is accepted and
mutates the room (phase becomes `playing`), contradicting the claim that it
changes nothing outside the lobby phase. -/
theorem c2_counterexample :
    roomV.gameState = "voting" ∧ roomV.host = "a" ∧ wordDataValid wdOk = true ∧
    (startGame roomV "a" wdOk ["b"] 0).1.gameState = "playing" ∧
    startGame roomV "a" wdOk ["b"] 0 ≠ (roomV, []) := by
  refine ⟨rfl, rfl, rfl, ?_, ?_⟩
  · decide
  · decide

/-- C2 (amended): for a room with a nonempty roster, `startGame` is a silent
no-op exactly when the requester is not the host or the supplied `wordData`
lacks a word or a category; the phase is never checked, so whenever the host
supplies complete `wordData` — in any phase, including `playing` and
`voting` — the game starts: the phase becomes `playing` and role payloads
are emitted. -/
theorem c2_startGame_guard (room : Room) (requester : String) (wd : Option WordData)
    (imps : List String) (sIdx : Nat) (hne : room.players ≠ []) :
    (startGame room requester wd imps sIdx = (room, []) ↔
      ¬(requester = room.host ∧ wordDataValid wd = true)) ∧
    (requester = room.host → wordDataValid wd = true →
      (startGame room requester wd imps sIdx).1.gameState = "playing" ∧
      (startGame room requester wd imps sIdx).2 ≠ []) := by
  constructor
  · constructor
    · intro heq
      rintro ⟨hhost, hvalid⟩
      rcases wd with _ | ⟨ow, oc, oh⟩
      · simp [wordDataValid] at hvalid
      · rcases ow with _ | w0
        · simp [wordDataValid] at hvalid
        · rcases oc with _ | c0
          · simp [wordDataValid] at hvalid
          · rw [startGame_ok room requester w0 c0 oh imps sIdx hhost.symm] at heq
            have h2 := congrArg Prod.snd heq
            simp only [] at h2
            exact hne (List.map_eq_nil_iff.mp h2)
    · intro hng
      by_cases hhost : requester = room.host
      · have hvalid : wordDataValid wd = false := by
          rcases Bool.eq_false_or_eq_true (wordDataValid wd) with h | h
          · exact absurd ⟨hhost, h⟩ hng
          · exact h
        exact startGame_invalid room requester wd imps sIdx hvalid
      · exact startGame_notHost room requester wd imps sIdx
          (fun hcon => hhost hcon.symm)
  · intro hhost hvalid
    rcases wd with _ | ⟨ow, oc, oh⟩
    · simp [wordDataValid] at hvalid
    · rcases ow with _ | w0
      · simp [wordDataValid] at hvalid
      · rcases oc with _ | c0
        · simp [wordDataValid] at hvalid
        · rw [startGame_ok room requester w0 c0 oh imps sIdx hhost.symm]
          constructor
          · rfl
          · simp only [ne_eq, List.map_eq_nil_iff]
            exact hne

/-- Witness for `c2_startGame_guard` at a concrete lobby room. -/
theorem c2_startGame_guard_witness :
    roomL.players ≠ [] ∧
    ((startGame roomL "a" wdOk ["b"] 0 = (roomL, []) ↔
      ¬("a" = roomL.host ∧ wordDataValid wdOk = true)) ∧
    ("a" = roomL.host → wordDataValid wdOk = true →
      (startGame roomL "a" wdOk ["b"] 0).1.gameState = "playing" ∧
      (startGame roomL "a" wdOk ["b"] 0).2 ≠ [])) :=
  ⟨by decide, c2_startGame_guard roomL "a" wdOk ["b"] 0 (by decide)⟩

/-! ## Claim C9 -/

/-- C9 counterexample: the host-issued `reset_game` returns the room to the
lobby phase but leaves the votes map, a player's `isDead` flag and the stale
`roleData` all uncleared. -/
theorem c9_counterexample :
    (resetGame roomDirty "a").1.gameState = "lobby" ∧
    (resetGame roomDirty "a").1.votes = [("a", "b")] ∧
    (resetGame roomDirty "a").1.players.head? =
      some { id := "a", name := "A", isDead := true, roleData := some rdCit } := by
  refine ⟨?_, ?_, ?_⟩
  · decide
  · decide
  · decide

/-- C9 (amended): the win-condition path `resetRoomToLobby` does reset the
phase, clear the votes and clear every player's `isDead` and `roleData`
while preserving the roster (ids and names, in order), the host and — being
a per-room update — the room's key in the store; but the host-issued
`reset_game` handler only sets the phase back to `lobby`, leaving votes,
`isDead` flags and `roleData` untouched. -/
theorem c9_reset_amended :
    (∀ room : Room,
      (resetRoomToLobby room).gameState = "lobby" ∧
      (resetRoomToLobby room).votes = [] ∧
      (∀ p ∈ (resetRoomToLobby room).players, p.isDead = false ∧ p.roleData = none) ∧
      (resetRoomToLobby room).players.map (fun p => (p.id, p.name)) =
        room.players.map (fun p => (p.id, p.name)) ∧
      (resetRoomToLobby room).host = room.host) ∧
    (∀ (room : Room) (requester : String), room.host = requester →
      resetGame room requester =
        ({ room with gameState := "lobby" }, [(Dest.toRoom, Msg.gameReset)])) ∧
    (∀ (room : Room) (requester : String), room.host ≠ requester →
      resetGame room requester = (room, [])) ∧
    (∀ (s : RoomStore) (code requester : String),
      (liftRoomOp s code (fun r => (resetGame r requester).1)).map (fun e => e.1) =
        s.map (fun e => e.1)) := by
  refine ⟨?_, ?_, ?_, ?_⟩
  · intro room
    refine ⟨rfl, rfl, ?_, ?_, rfl⟩
    · intro p hp
      rcases List.mem_map.mp hp with ⟨q, _, hq⟩
      rw [← hq]
      exact ⟨rfl, rfl⟩
    · show ((room.players.map (fun p => { p with isDead := false, roleData := none })).map
        (fun p => (p.id, p.name))) = room.players.map (fun p => (p.id, p.name))
      rw [List.map_map]
      rfl
  · intro room requester h
    unfold resetGame
    rw [if_pos (by simp [h])]
  · intro room requester h
    unfold resetGame
    rw [if_neg (by simp [h])]
  · intro s code requester
    exact liftRoomOp_keys s code (fun r => (resetGame r requester).1)

/-- Witness for `c9_reset_amended` at a concrete dirty room. -/
theorem c9_reset_amended_witness :
    roomDirty.host = "a" ∧
    resetGame roomDirty "a" =
      ({ roomDirty with gameState := "lobby" }, [(Dest.toRoom, Msg.gameReset)]) :=
  ⟨rfl, c9_reset_amended.2.1 roomDirty "a" rfl⟩

end Impostor

namespace Impostor

/-! ## Claim C3 -/

theorem count_mem_ids (ids : List String) (imps : List String)
    (hids : ids.Nodup) (himps : imps.Nodup) (hsub : ∀ x ∈ imps, x ∈ ids) :
    (ids.filter (fun x => decide (x ∈ imps))).length = imps.length := by
  have s1 : imps.Subperm (ids.filter (fun x => decide (x ∈ imps))) :=
    List.subperm_of_subset himps
      (fun x hx => List.mem_filter.mpr ⟨hsub x hx, by simpa using hx⟩)
  have s2 : (ids.filter (fun x => decide (x ∈ imps))).Subperm imps :=
    List.subperm_of_subset (hids.filter _)
      (fun x hx => by simpa using List.of_mem_filter hx)
  exact (List.Subperm.antisymm s2 s1).length_eq

/-- A four-player lobby room. -/
def roomL4 : Room :=
  { host := "a",
    players := [{ id := "a", name := "A" }, { id := "b", name := "B" },
                { id := "c", name := "C" }, { id := "d", name := "D" }],
    gameState := "lobby", votes := [] }

/-- C3 counterexample: with 4 players and requested impostor count `K = 0`
the code computes `min(0, max(1, 3)) = 0`, the selection loop collects no
one, and the started game has zero impostors — while the claimed formula
`max(1, min(K, N-1))` gives 1 and the claim says the count is never zero. -/
theorem c3_counterexample :
    ImpostorChoice roomL4 0 [] ∧
    (startGame roomL4 "a" wdOk [] 0).1.gameState = "playing" ∧
    ((startGame roomL4 "a" wdOk [] 0).1.players.filter
      (fun p => isImpostorP p)).length = 0 ∧
    (max 1 (min (0 : Int) ((4 : Int) - 1))).toNat = 1 := by
  refine ⟨⟨?_, ?_, ?_⟩, ?_, ?_, ?_⟩
  · decide
  · intro i hi
    exact absurd hi (List.not_mem_nil i)
  · decide
  · decide
  · decide
  · decide

/-- C3 (amended): for every successful `startGame` on a room with `N`
players (distinct ids) and requested impostor count `K`, the number of
players assigned the impostor role equals
`Int.toNat (min K (max 1 (N - 1)))` — the code clamps only from above, so
the count is `max(1, min(K, N-1))` exactly when `K ≥ 1` and `N ≥ 2`, but it
is `0` (no impostors at all) for every `K ≤ 0`, and it equals `N` when
`N = 1 ≤ K`. -/
theorem c3_impostor_count (room : Room) (requester w c : String)
    (hint : Option String) (K : Int) (imps : List String) (sIdx : Nat)
    (hhost : room.host = requester)
    (hids : (room.players.map (fun p => p.id)).Nodup)
    (hchoice : ImpostorChoice room K imps) :
    ((startGame room requester (some ⟨some w, some c, hint⟩) imps sIdx).1.players.filter
        (fun p => isImpostorP p)).length = numImpostorsSelected room.players.length K ∧
    numImpostorsSelected room.players.length K =
      (min K (max 1 ((room.players.length : Int) - 1))).toNat ∧
    (1 ≤ K → 2 ≤ room.players.length →
      (min K (max 1 ((room.players.length : Int) - 1))).toNat =
        (max 1 (min K ((room.players.length : Int) - 1))).toNat) := by
  refine ⟨?_, rfl, ?_⟩
  · rcases hchoice with ⟨hnd, hsub, hlen⟩
    rw [startGame_ok room requester w c hint imps sIdx hhost]
    show ((room.players.map (fun p =>
        { p with roleData := some (assignRole imps w c hint
          (startingName room.players sIdx) p) })).filter
        (fun p => isImpostorP p)).length = _
    rw [← List.countP_eq_length_filter, List.countP_map]
    have hcong : room.players.countP ((fun p => isImpostorP p) ∘ (fun p =>
        { p with roleData := some (assignRole imps w c hint
          (startingName room.players sIdx) p) })) =
        room.players.countP (fun p => decide (p.id ∈ imps)) := by
      refine List.countP_congr ?_
      intro p _
      by_cases hmem : p.id ∈ imps
      · simp [Function.comp, isImpostorP, assignRole, hmem]
      · simp [Function.comp, isImpostorP, assignRole, hmem]
    rw [hcong]
    have h2 : room.players.countP (fun p => decide (p.id ∈ imps)) =
        (room.players.map (fun p => p.id)).countP (fun x => decide (x ∈ imps)) :=
      (List.countP_map (fun x => decide (x ∈ imps))
        (fun p : Player => p.id) room.players).symm
    rw [h2, List.countP_eq_length_filter,
      count_mem_ids (room.players.map (fun p => p.id)) imps hids hnd hsub]
    exact hlen
  · intro hK hN
    have hN1 : (1 : Int) ≤ (room.players.length : Int) - 1 := by
      have h2 : (2 : Int) ≤ (room.players.length : Int) := by exact_mod_cast hN
      omega
    congr 1
    rw [max_eq_right hN1]
    rcases le_total K ((room.players.length : Int) - 1) with h | h
    · rw [min_eq_left h, max_eq_right hK]
    · rw [min_eq_right h, max_eq_right hN1]

/-- Witness for `c3_impostor_count` at a concrete two-player room. -/
theorem c3_impostor_count_witness :
    roomL.host = "a" ∧ (roomL.players.map (fun p => p.id)).Nodup ∧
    ImpostorChoice roomL 1 ["b"] ∧
    (((startGame roomL "a" (some ⟨some "sol", some "astro", some "brilla"⟩)
        ["b"] 0).1.players.filter (fun p => isImpostorP p)).length =
      numImpostorsSelected roomL.players.length 1 ∧
    numImpostorsSelected roomL.players.length 1 =
      (min 1 (max 1 ((roomL.players.length : Int) - 1))).toNat ∧
    (1 ≤ (1 : Int) → 2 ≤ roomL.players.length →
      (min (1 : Int) (max 1 ((roomL.players.length : Int) - 1))).toNat =
        (max 1 (min (1 : Int) ((roomL.players.length : Int) - 1))).toNat)) :=
  ⟨rfl, by decide, ⟨by decide, by decide, by decide⟩,
   c3_impostor_count roomL "a" "sol" "astro" (some "brilla") 1 ["b"] 0 rfl
     (by decide) ⟨by decide, by decide, by decide⟩⟩

end Impostor

namespace Impostor

/-! ## Claim C4 -/

/-- A complete `wordData` payload without a hint. -/
def wdNoHint : Option WordData :=
  some { word := some "sol", category := some "astro", hint := none }

/-- C4 counterexample: `start_game` validates only `word` and `category`,
never `hint`; with a hint-less `wordData` the start succeeds and the
selected impostor's `roleData.impostorHint` is null, contradicting the
claimed "non-null impostorHint". -/
theorem c4_counterexample :
    (startGame roomL "a" wdNoHint ["a"] 0).1.gameState = "playing" ∧
    (startGame roomL "a" wdNoHint ["a"] 0).1.players.head? =
      some { id := "a", name := "A", isDead := false, roleData := some { role := "impostor", word := none, category := "astro", impostorHint := none, startingPlayer := "A" } } := by
  refine ⟨?_, ?_⟩
  · decide
  · decide

/-- C4 (amended): after a successful `startGame`, exactly the selected
impostors have `role = impostor`, `word = null` and `impostorHint` equal to
the supplied `wordData.hint` (non-null exactly when a hint was supplied —
the hint is never validated); every other player has `role = citizen`, the
real word and no hint; no player receives both a word and an impostor hint;
all role payloads carry the category and the same `startingPlayer` name; and
each payload is emitted only to its owner's connection, never broadcast. -/
theorem c4_role_payloads (room : Room) (requester w c : String)
    (hint : Option String) (imps : List String) (sIdx : Nat)
    (hhost : room.host = requester) :
    ((startGame room requester (some ⟨some w, some c, hint⟩) imps sIdx).1.players =
      room.players.map (fun q => { q with roleData := some (assignRole imps w c hint
        (startingName room.players sIdx) q) })) ∧
    (∀ q : Player, q.id ∈ imps →
      assignRole imps w c hint (startingName room.players sIdx) q =
        { role := "impostor", word := none, category := c, impostorHint := hint,
          startingPlayer := startingName room.players sIdx }) ∧
    (∀ q : Player, q.id ∉ imps →
      assignRole imps w c hint (startingName room.players sIdx) q =
        { role := "citizen", word := some w, category := c, impostorHint := none,
          startingPlayer := startingName room.players sIdx }) ∧
    (∀ p ∈ (startGame room requester (some ⟨some w, some c, hint⟩) imps sIdx).1.players,
      (isImpostorP p = true ↔ p.id ∈ imps)) ∧
    (∀ p ∈ (startGame room requester (some ⟨some w, some c, hint⟩) imps sIdx).1.players,
      ¬((p.roleData.bind (fun rd => rd.word)).isSome = true ∧
        (p.roleData.bind (fun rd => rd.impostorHint)).isSome = true)) ∧
    (∀ p ∈ (startGame room requester (some ⟨some w, some c, hint⟩) imps sIdx).1.players,
      p.roleData.map (fun rd => rd.category) = some c ∧
      p.roleData.map (fun rd => rd.startingPlayer) =
        some (startingName room.players sIdx)) ∧
    ((startGame room requester (some ⟨some w, some c, hint⟩) imps sIdx).2 =
      room.players.map (fun q => (Dest.toPlayer q.id, Msg.gameStarted
        (some (assignRole imps w c hint (startingName room.players sIdx) q))))) ∧
    (∀ e ∈ (startGame room requester (some ⟨some w, some c, hint⟩) imps sIdx).2,
      ∃ p ∈ (startGame room requester (some ⟨some w, some c, hint⟩) imps sIdx).1.players,
        e.1 = Dest.toPlayer p.id ∧ e.2 = Msg.gameStarted p.roleData) ∧
    (∀ e ∈ (startGame room requester (some ⟨some w, some c, hint⟩) imps sIdx).2,
      e.1 ≠ Dest.toRoom) := by
  have hok := startGame_ok room requester w c hint imps sIdx hhost
  refine ⟨?_, ?_, ?_, ?_, ?_, ?_, ?_, ?_, ?_⟩
  · rw [hok]
  · intro q hq
    unfold assignRole
    rw [if_pos hq]
  · intro q hq
    unfold assignRole
    rw [if_neg hq]
  · intro p hp
    rw [hok] at hp
    rcases List.mem_map.mp hp with ⟨q, _, hq⟩
    subst hq
    by_cases hmem : q.id ∈ imps
    · simp [isImpostorP, assignRole, hmem]
    · simp [isImpostorP, assignRole, hmem]
  · intro p hp
    rw [hok] at hp
    rcases List.mem_map.mp hp with ⟨q, _, hq⟩
    subst hq
    by_cases hmem : q.id ∈ imps
    · simp [assignRole, hmem]
    · simp [assignRole, hmem]
  · intro p hp
    rw [hok] at hp
    rcases List.mem_map.mp hp with ⟨q, _, hq⟩
    subst hq
    by_cases hmem : q.id ∈ imps
    · simp [assignRole, hmem]
    · simp [assignRole, hmem]
  · rw [hok]
  · intro e he
    rw [hok] at he
    rcases List.mem_map.mp he with ⟨q, hqmem, hq⟩
    subst hq
    refine ⟨{ q with roleData := some (assignRole imps w c hint
      (startingName room.players sIdx) q) }, ?_, rfl, rfl⟩
    rw [hok]
    exact List.mem_map.mpr ⟨q, hqmem, rfl⟩
  · intro e he
    rw [hok] at he
    rcases List.mem_map.mp he with ⟨q, _, hq⟩
    subst hq
    simp

/-- Witness for `c4_role_payloads` at a concrete lobby room. -/
theorem c4_role_payloads_witness :
    roomL.host = "a" ∧
    (((startGame roomL "a" (some ⟨some "sol", some "astro", some "brilla"⟩)
        ["b"] 0).1.players.map (fun p => p.roleData.map (fun rd => rd.role))) =
      [some (some "citizen"), some (some "impostor")].map (fun o => o.getD none)) ∧
    (∀ e ∈ (startGame roomL "a" (some ⟨some "sol", some "astro", some "brilla"⟩)
        ["b"] 0).2, e.1 ≠ Dest.toRoom) :=
  ⟨rfl, by decide,
   (c4_role_payloads roomL "a" "sol" "astro" (some "brilla") ["b"] 0 rfl).2.2.2.2.2.2.2.2⟩

end Impostor

namespace Impostor

/-! ## Claim C5 -/

theorem setVote_append (votes : List (String × String)) (k v : String)
    (h : lookupS votes k = none) : setVote votes k v = votes ++ [(k, v)] := by
  induction votes with
  | nil => rfl
  | cons e rest ih =>
    rcases e with ⟨k', v'⟩
    by_cases hk : k' = k
    · rw [lookupS, if_pos hk] at h
      exact absurd h (by simp)
    · rw [lookupS, if_neg hk] at h
      rw [setVote, if_neg hk, ih h]
      rfl

theorem setVote_length_mem (votes : List (String × String)) (k v t : String)
    (h : lookupS votes k = some t) : (setVote votes k v).length = votes.length := by
  induction votes with
  | nil => rw [lookupS] at h; exact absurd h (by simp)
  | cons e rest ih =>
    rcases e with ⟨k', v'⟩
    by_cases hk : k' = k
    · rw [setVote, if_pos hk]
      rfl
    · rw [lookupS, if_neg hk] at h
      rw [setVote, if_neg hk, List.length_cons, List.length_cons, ih h]

/-- A three-player voting room in which player `a` has voted the empty
string. -/
def roomVote3 : Room :=
  { host := "a",
    players := [{ id := "a", name := "A" }, { id := "b", name := "B" },
                { id := "c", name := "C" }],
    gameState := "voting", votes := [("a", "")] }

/-- C5 counterexample: the duplicate-vote guard is the JS truthiness of
`room.votes[socket.id]`; a recorded empty-string target is falsy, so a
voter who already voted `""` can vote again, and the new vote overwrites
the old one — the first vote per voter per round does not always win and
the second `castVote` is not a no-op. -/
theorem c5_counterexample :
    lookupS roomVote3.votes "a" = some "" ∧
    castVote roomVote3 "a" "b" 0 ≠ (roomVote3, []) ∧
    (castVote roomVote3 "a" "b" 0).1.votes = [("a", "b")] := by
  refine ⟨?_, ?_, ?_⟩
  · decide
  · decide
  · decide

/-- C5 (amended): `castVote` is a no-op unless the room's phase is
`voting`, the voter is in the roster and alive, and the voter has not
already cast a vote with a non-empty target (the truthiness guard lets a
recorded empty-string vote be re-cast and overwritten); for a first vote by
a living voter, when every recorded vote belongs to a distinct living
player, the new vote is appended and voting closes with synchronous
resolution exactly when the number of recorded votes equals the number of
currently living players — never before, and with no trigger other than the
vote that reaches the count. -/
theorem c5_vote_closing :
    (∀ (room : Room) (voterId targetId : String) (rand : Nat),
      room.gameState ≠ "voting" → castVote room voterId targetId rand = (room, [])) ∧
    (∀ (room : Room) (voterId targetId : String) (rand : Nat),
      findP (fun p => p.id == voterId) room.players = none →
      castVote room voterId targetId rand = (room, [])) ∧
    (∀ (room : Room) (voterId targetId : String) (rand : Nat) (voter : Player),
      findP (fun p => p.id == voterId) room.players = some voter →
      voter.isDead = true → castVote room voterId targetId rand = (room, [])) ∧
    (∀ (room : Room) (voterId targetId : String) (rand : Nat) (t : String),
      lookupS room.votes voterId = some t → t ≠ "" →
      castVote room voterId targetId rand = (room, [])) ∧
    (∀ (room : Room) (voterId targetId : String) (rand : Nat) (voter : Player),
      room.gameState = "voting" →
      findP (fun p => p.id == voterId) room.players = some voter →
      voter.isDead = false →
      lookupS room.votes voterId = none →
      (room.votes.map (fun v => v.1)).Nodup →
      (∀ v ∈ room.votes, v.1 ∈ (livingPlayers room.players).map (fun p => p.id)) →
      (room.players.map (fun p => p.id)).Nodup →
      setVote room.votes voterId targetId = room.votes ++ [(voterId, targetId)] ∧
      room.votes.length + 1 ≤ (livingPlayers room.players).length ∧
      (room.votes.length + 1 = (livingPlayers room.players).length →
        castVote room voterId targetId rand = processVotingResult
          { room with votes := room.votes ++ [(voterId, targetId)] } rand) ∧
      (room.votes.length + 1 < (livingPlayers room.players).length →
        castVote room voterId targetId rand =
          ({ room with votes := room.votes ++ [(voterId, targetId)] }, []))) ∧
    (∀ (room : Room) (voterId targetId : String) (rand : Nat) (voter : Player),
      room.gameState = "voting" →
      findP (fun p => p.id == voterId) room.players = some voter →
      voter.isDead = false →
      lookupS room.votes voterId = some "" →
      room.votes.length < (livingPlayers room.players).length →
      castVote room voterId targetId rand =
        ({ room with votes := setVote room.votes voterId targetId }, [])) := by
  refine ⟨?_, ?_, ?_, ?_, ?_, ?_⟩
  · intro room voterId targetId rand h
    exact castVote_notVoting room voterId targetId rand h
  · intro room voterId targetId rand h
    by_cases h1 : room.gameState = "voting"
    · exact castVote_noVoter room voterId targetId rand h1 h
    · exact castVote_notVoting room voterId targetId rand h1
  · intro room voterId targetId rand voter hf hd
    by_cases h1 : room.gameState = "voting"
    · exact castVote_deadVoter room voterId targetId rand voter h1 hf hd
    · exact castVote_notVoting room voterId targetId rand h1
  · intro room voterId targetId rand t hl ht
    by_cases h1 : room.gameState = "voting"
    · cases hf : findP (fun p => p.id == voterId) room.players with
      | none => exact castVote_noVoter room voterId targetId rand h1 hf
      | some voter =>
        cases hd : voter.isDead with
        | true => exact castVote_deadVoter room voterId targetId rand voter h1 hf hd
        | false =>
          have hvb : voteBlocks room.votes voterId = true := by
            simp [voteBlocks, hl, ht]
          exact castVote_blocked room voterId targetId rand voter h1 hf hd hvb
    · exact castVote_notVoting room voterId targetId rand h1
  · intro room voterId targetId rand voter h1 h2 h3 h4 hnodK hsubK hnodP
    have hset : setVote room.votes voterId targetId =
        room.votes ++ [(voterId, targetId)] := setVote_append _ _ _ h4
    have hvb : voteBlocks room.votes voterId = false := by simp [voteBlocks, h4]
    have hrec := castVote_recorded room voterId targetId rand voter h1 h2 h3 hvb
    have hmem : voterId ∈ (livingPlayers room.players).map (fun p => p.id) := by
      rcases findP_some _ room.players voter h2 with ⟨hv, hpv⟩
      have hid : voter.id = voterId := by simpa using hpv
      rw [← hid]
      refine List.mem_map.mpr ⟨voter, ?_, rfl⟩
      exact List.mem_filter.mpr ⟨hv, by simp [h3]⟩
    have hnotin : voterId ∉ room.votes.map (fun v => v.1) :=
      (lookupS_eq_none _ _).mp h4
    have hsub' : (room.votes.map (fun v => v.1)) ++ [voterId] ⊆
        (livingPlayers room.players).map (fun p => p.id) := by
      intro x hx
      rcases List.mem_append.mp hx with hx | hx
      · rcases List.mem_map.mp hx with ⟨v, hv, hxv⟩
        rw [← hxv]
        exact hsubK v hv
      · simp at hx
        subst hx
        exact hmem
    have hnd' : ((room.votes.map (fun v => v.1)) ++ [voterId]).Nodup := by
      rw [List.nodup_append]
      exact ⟨hnodK, List.nodup_singleton _, by simpa using hnotin⟩
    have hle : room.votes.length + 1 ≤ (livingPlayers room.players).length := by
      have hlen := (List.subperm_of_subset hnd' hsub').length_le
      simpa using hlen
    refine ⟨hset, hle, ?_, ?_⟩
    · intro heq
      have hcond : (room.votes ++ [(voterId, targetId)]).length ≥
          (livingPlayers room.players).length := by
        simp only [List.length_append, List.length_singleton]
        omega
      rw [hrec, hset, if_pos hcond]
    · intro hlt
      have hcond : ¬((room.votes ++ [(voterId, targetId)]).length ≥
          (livingPlayers room.players).length) := by
        simp only [List.length_append, List.length_singleton]
        omega
      rw [hrec, hset, if_neg hcond]
  · intro room voterId targetId rand voter h1 h2 h3 h4 hlt
    have hvb : voteBlocks room.votes voterId = false := by simp [voteBlocks, h4]
    have hlen : (setVote room.votes voterId targetId).length = room.votes.length :=
      setVote_length_mem _ _ _ _ h4
    have hcond : ¬((setVote room.votes voterId targetId).length ≥
        (livingPlayers room.players).length) := by
      rw [hlen]
      omega
    rw [castVote_recorded room voterId targetId rand voter h1 h2 h3 hvb,
      if_neg hcond]

/-- Witness for `c5_vote_closing` at a concrete voting room: the closing
vote triggers synchronous resolution. -/
theorem c5_vote_closing_witness :
    roomV.gameState = "voting" ∧
    (setVote roomV.votes "a" "b" = roomV.votes ++ [("a", "b")] ∧
     roomV.votes.length + 1 ≤ (livingPlayers roomV.players).length ∧
     (roomV.votes.length + 1 = (livingPlayers roomV.players).length →
       castVote roomV "a" "b" 0 = processVotingResult
         { roomV with votes := roomV.votes ++ [("a", "b")] } 0) ∧
     (roomV.votes.length + 1 < (livingPlayers roomV.players).length →
       castVote roomV "a" "b" 0 =
         ({ roomV with votes := roomV.votes ++ [("a", "b")] }, []))) :=
  ⟨rfl, c5_vote_closing.2.2.2.2.1 roomV "a" "b" 0 { id := "a", name := "A" }
    rfl (by decide) rfl (by decide) (by decide)
    (by intro v hv; exact absurd hv (List.not_mem_nil v)) (by decide)⟩

end Impostor

namespace Impostor

/-! ## Shared resolution lemmas -/

theorem victimScrutinee (room : Room) (vid : String) (idx : Nat) (victim : Player)
    (hmax : findMostVoted (tallies room.votes) = some vid)
    (hidx : findIdxP (fun p => some p.id == some vid) room.players = some idx)
    (hvic : room.players.get? idx = some victim) :
    (findIdxP (fun p => some p.id == findMostVoted (tallies room.votes))
      room.players).bind (fun i => (room.players.get? i).map (fun v => (i, v))) =
      some (idx, victim) := by
  rw [hmax, hidx]
  show (room.players.get? idx).map (fun v => (idx, v)) = some (idx, victim)
  rw [hvic]
  rfl

theorem noVictimScrutinee (room : Room) (vid : String)
    (hmax : findMostVoted (tallies room.votes) = some vid)
    (hidx : findIdxP (fun p => some p.id == some vid) room.players = none) :
    (findIdxP (fun p => some p.id == findMostVoted (tallies room.votes))
      room.players).bind (fun i => (room.players.get? i).map (fun v => (i, v))) =
      none := by
  rw [hmax, hidx]
  rfl

theorem resolveElimination_msgs (room : Room) (players1 : List Player)
    (victim : Player) (rand : Nat) :
    ∃ rest, (resolveElimination room players1 victim rand).2 =
      elimMsgList players1 victim (isImpostorP victim) ++ rest := by
  unfold resolveElimination
  split
  · exact ⟨_, rfl⟩
  · split
    · exact ⟨_, rfl⟩
    · exact ⟨_, rfl⟩

theorem get_mod_mem {α : Type} (l : List α) (k : Nat) (h : l ≠ []) :
    ∃ a, l.get? (k % l.length) = some a ∧ a ∈ l := by
  have hpos : 0 < l.length := List.length_pos.mpr h
  have hlt : k % l.length < l.length := Nat.mod_lt k hpos
  exact ⟨l.get ⟨k % l.length, hlt⟩, List.get?_eq_get hlt, List.get_mem l _ _⟩

/-! ## Claim C10 -/

/-- A voting room whose two living players both voted for an identity that
is not in the room. -/
def roomGhost : Room :=
  { host := "a",
    players := [{ id := "a", name := "A" }, { id := "b", name := "B" }],
    gameState := "voting", votes := [("a", "zz"), ("b", "zz")] }

/-- C10: `cast_vote` records any supplied target without validating it and
emits no error; at resolution a plurality target that is an already-dead
player is marked dead again and announced in another `player_eliminated`
event, and a plurality target absent from the room eliminates no one — the
round continues with the first survivor as starting player. -/
theorem c10_unvalidated_targets :
    (∀ (room : Room) (voterId targetId : String) (rand : Nat) (voter : Player),
      room.gameState = "voting" →
      findP (fun p => p.id == voterId) room.players = some voter →
      voter.isDead = false →
      lookupS room.votes voterId = none →
      room.votes.length + 1 < (livingPlayers room.players).length →
      castVote room voterId targetId rand =
        ({ room with votes := room.votes ++ [(voterId, targetId)] }, [])) ∧
    (∀ (room : Room) (rand : Nat) (vid : String) (idx : Nat) (victim : Player),
      findMostVoted (tallies room.votes) = some vid →
      findIdxP (fun p => some p.id == some vid) room.players = some idx →
      room.players.get? idx = some victim →
      victim.isDead = true →
      (updateAt room.players idx (fun p => { p with isDead := true })).get? idx =
        some { victim with isDead := true } ∧
      (∀ p ∈ updateAt room.players idx (fun p => { p with isDead := true }),
        (Dest.toPlayer p.id, Msg.playerEliminated victim.id victim.name
          (p.id == victim.id) (isImpostorP victim)) ∈
          (processVotingResult room rand).2)) ∧
    (∀ (room : Room) (rand : Nat) (vid : String) (s : Player),
      findMostVoted (tallies room.votes) = some vid →
      findIdxP (fun p => some p.id == some vid) room.players = none →
      (livingPlayers room.players).get? 0 = some s →
      processVotingResult room rand =
        ({ room with gameState := "playing", votes := [] },
         [(Dest.toRoom, Msg.nextRound s.name)])) := by
  refine ⟨?_, ?_, ?_⟩
  · intro room voterId targetId rand voter h1 h2 h3 h4 hlt
    have hvb : voteBlocks room.votes voterId = false := by simp [voteBlocks, h4]
    have hset : setVote room.votes voterId targetId =
        room.votes ++ [(voterId, targetId)] := setVote_append _ _ _ h4
    have hcond : ¬((room.votes ++ [(voterId, targetId)]).length ≥
        (livingPlayers room.players).length) := by
      simp only [List.length_append, List.length_singleton]
      omega
    rw [castVote_recorded room voterId targetId rand voter h1 h2 h3 hvb, hset,
      if_neg hcond]
  · intro room rand vid idx victim hmax hidx hvic hdead
    have hscr := victimScrutinee room vid idx victim hmax hidx hvic
    have heq := processVotingResult_found room rand idx victim hscr
    refine ⟨updateAt_get_self _ room.players idx victim hvic, ?_⟩
    intro p hp
    rcases resolveElimination_msgs room
      (updateAt room.players idx (fun p => { p with isDead := true })) victim rand
      with ⟨rest, hrest⟩
    rw [heq, hrest]
    refine List.mem_append.mpr (Or.inl ?_)
    exact List.mem_map.mpr ⟨p, hp, rfl⟩
  · intro room rand vid s hmax hidx hs
    have hscr := noVictimScrutinee room vid hmax hidx
    rw [processVotingResult_notFound room rand hscr, hs]
    rfl

/-- Witness for `c10_unvalidated_targets`: both survivors voted for the
absent identity `"zz"`; resolution eliminates no one and restarts the round
with the first survivor. -/
theorem c10_unvalidated_targets_witness :
    findMostVoted (tallies roomGhost.votes) = some "zz" ∧
    findIdxP (fun p => some p.id == some "zz") roomGhost.players = none ∧
    (livingPlayers roomGhost.players).get? 0 = some { id := "a", name := "A" } ∧
    processVotingResult roomGhost 0 =
      ({ roomGhost with gameState := "playing", votes := [] },
       [(Dest.toRoom, Msg.nextRound "A")]) :=
  ⟨by decide, by decide, by decide,
   c10_unvalidated_targets.2.2 roomGhost 0 "zz" { id := "a", name := "A" }
     (by decide) (by decide) (by decide)⟩

end Impostor

namespace Impostor

/-! ## Claim C7 -/

theorem timerFire_mem (st : ServerState) (pid : String) (h : pid ∈ st.timers) :
    timerFire st pid =
      { rooms := evictPlayer st.rooms pid,
        timers := st.timers.filter (fun t => !(t == pid)) } := by
  unfold timerFire
  rw [if_pos h]

theorem timerFire_notMem (st : ServerState) (pid : String) (h : pid ∉ st.timers) :
    timerFire st pid = st := by
  unfold timerFire
  rw [if_neg h]

/-- C7: a transport disconnect removes no one — it only installs a timer
keyed by the stale identity; a rejoin cancels the timer, after which its
firing is a no-op; an uncancelled timer's firing runs the same
`handlePlayerExit` removal as `leave` on the first room holding the stale
identity and deletes its own entry, so firing again changes nothing — the
player is removed exactly once, and only when the 45000 ms grace window
elapses. -/
theorem c7_disconnect_grace :
    (∀ (st : ServerState) (pid : String),
      (disconnectEvent st pid).rooms = st.rooms ∧
      pid ∈ (disconnectEvent st pid).timers) ∧
    (∀ (st : ServerState) (pid : String), pid ∉ st.timers →
      timerFire st pid = st) ∧
    (∀ (st : ServerState) (pid : String), pid ∈ st.timers →
      (timerFire st pid).rooms = evictPlayer st.rooms pid ∧
      pid ∉ (timerFire st pid).timers) ∧
    (∀ (st : ServerState) (pid : String),
      timerFire (timerFire st pid) pid = timerFire st pid) ∧
    (∀ (s : RoomStore) (pid code : String), findRoomOf s pid = some code →
      evictPlayer s pid = handlePlayerExit s code pid) ∧
    (∀ (st : ServerState) (code name newId : String) (room : Room) (i : Nat)
      (p : Player),
      lookupS st.rooms code = some room →
      (findIdxP (fun q => q.name == name) room.players).bind
        (fun j => (room.players.get? j).map (fun q => (j, q))) = some (i, p) →
      p.id ∉ ((rejoinRoom st code name newId).1).timers) ∧
    graceWindowMs = 45000 := by
  refine ⟨?_, ?_, ?_, ?_, ?_, ?_, rfl⟩
  · intro st pid
    refine ⟨rfl, ?_⟩
    show pid ∈ (if pid ∈ st.timers then st.timers else st.timers ++ [pid])
    by_cases h : pid ∈ st.timers
    · rw [if_pos h]
      exact h
    · rw [if_neg h]
      simp
  · intro st pid h
    exact timerFire_notMem st pid h
  · intro st pid h
    rw [timerFire_mem st pid h]
    refine ⟨rfl, ?_⟩
    intro hmem
    have := List.of_mem_filter hmem
    simp at this
  · intro st pid
    by_cases h : pid ∈ st.timers
    · rw [timerFire_mem st pid h]
      refine timerFire_notMem _ pid ?_
      intro hmem
      have := List.of_mem_filter hmem
      simp at this
    · rw [timerFire_notMem st pid h, timerFire_notMem st pid h]
  · intro s pid code h
    unfold evictPlayer
    rw [h]
  · intro st code name newId room i p hl hm
    rw [rejoinRoom_found st code name newId room i p hl hm]
    intro hmem
    have := List.of_mem_filter hmem
    simp at this

/-- Witness for `c7_disconnect_grace`: firing the pending timer for `"b"`
removes it from the timer table and runs the eviction. -/
theorem c7_disconnect_grace_witness :
    "b" ∈ (ServerState.mk [("WXYZ", roomL)] ["b"]).timers ∧
    ((timerFire (ServerState.mk [("WXYZ", roomL)] ["b"]) "b").rooms =
      evictPlayer (ServerState.mk [("WXYZ", roomL)] ["b"]).rooms "b" ∧
    "b" ∉ (timerFire (ServerState.mk [("WXYZ", roomL)] ["b"]) "b").timers) :=
  ⟨by decide,
   c7_disconnect_grace.2.2.1 (ServerState.mk [("WXYZ", roomL)] ["b"]) "b" (by decide)⟩

end Impostor

namespace Impostor

/-! ## Claim C8 -/

theorem joinRoom_nameTaken (s : RoomStore) (code id name : String) (room : Room)
    (h : lookupS s code = some room)
    (hdup : ∃ q ∈ room.players, q.name.toLower = name.toLower) :
    joinRoom s code id name = s := by
  unfold joinRoom
  by_cases h0 : name = ""
  · rw [if_pos h0]
  · rw [if_neg h0]
    simp only [h]
    have hany : room.players.any (fun p => p.name.toLower == name.toLower) = true := by
      rw [List.any_eq_true]
      rcases hdup with ⟨q, hq, hqe⟩
      exact ⟨q, hq, by simpa using hqe⟩
    by_cases h2 : room.gameState ≠ "lobby"
    · rw [if_pos h2]
    · rw [if_neg h2]
      by_cases h3 : room.players.length ≥ 12
      · rw [if_pos h3]
      · rw [if_neg h3, if_pos hany]

/-- An impostor role payload used in fixtures. -/
def rdImp : RoleData :=
  { role := "impostor", word := none, category := "astro",
    impostorHint := some "brilla", startingPlayer := "A" }

/-- A two-player room in the `playing` phase with stored role payloads. -/
def roomPlay : Room :=
  { host := "a",
    players := [{ id := "a", name := "A", isDead := false, roleData := some rdCit },
                { id := "b", name := "B", isDead := false, roleData := some rdImp }],
    gameState := "playing", votes := [] }

/-- C8: `rejoin_room` locates the player by stored display name (join-time
uniqueness of names is case-insensitive); with no matching name it fails
with the recovery error and leaves the state unchanged; on a match it
cancels the old identity's pending disconnect timer, rewrites the player's
id to the new identity, transfers the host id when the old identity was
host, keeps the roster size unchanged, and — when the phase is `playing` —
delivers the player's preserved `roleData` privately to the new identity. -/
theorem c8_rejoin_by_name :
    (∀ (st : ServerState) (code name newId : String) (room : Room),
      lookupS st.rooms code = some room →
      findIdxP (fun p => p.name == name) room.players = none →
      rejoinRoom st code name newId =
        (st, [(Dest.toPlayer newId,
          Msg.errorMessage "No se pudo recuperar la sesión.")])) ∧
    (∀ (st : ServerState) (code name newId : String) (room : Room) (i : Nat)
      (p : Player),
      lookupS st.rooms code = some room →
      findIdxP (fun q => q.name == name) room.players = some i →
      room.players.get? i = some p →
      ((rejoinRoom st code name newId).1.rooms = updateRoom st.rooms code
          { room with
              players := updateAt room.players i (fun q => { q with id := newId })
              host := if room.host = p.id then newId else room.host } ∧
       (rejoinRoom st code name newId).1.timers =
         st.timers.filter (fun t => !(t == p.id)) ∧
       (updateAt room.players i (fun q => { q with id := newId })).length =
         room.players.length ∧
       (updateAt room.players i (fun q => { q with id := newId })).get? i =
         some { p with id := newId } ∧
       (room.gameState = "playing" →
         (rejoinRoom st code name newId).2 =
           [(Dest.toRoom, Msg.updatePlayers
               (updateAt room.players i (fun q => { q with id := newId }))
               (some (if room.host = p.id then newId else room.host))),
            (Dest.toPlayer newId, Msg.gameStarted p.roleData)]))) ∧
    (∀ (s : RoomStore) (code id name : String) (room : Room),
      lookupS s code = some room →
      (∃ q ∈ room.players, q.name.toLower = name.toLower) →
      joinRoom s code id name = s) := by
  refine ⟨?_, ?_, ?_⟩
  · intro st code name newId room hl hidx
    refine rejoinRoom_noMatch st code name newId room hl ?_
    rw [hidx]
    rfl
  · intro st code name newId room i p hl hidx hget
    have hm : (findIdxP (fun q => q.name == name) room.players).bind
        (fun j => (room.players.get? j).map (fun q => (j, q))) = some (i, p) := by
      rw [hidx]
      show (room.players.get? i).map (fun q => (i, q)) = some (i, p)
      rw [hget]
      rfl
    have heq := rejoinRoom_found st code name newId room i p hl hm
    refine ⟨?_, ?_, ?_, ?_, ?_⟩
    · rw [heq]
    · rw [heq]
    · exact updateAt_length _ room.players i
    · exact updateAt_get_self _ room.players i p hget
    · intro hplay
      rw [heq]
      show (Dest.toRoom, Msg.updatePlayers _ _) ::
        (if room.gameState = "playing" then
          [(Dest.toPlayer newId, Msg.gameStarted p.roleData)]
        else [(Dest.toPlayer newId, Msg.joinSuccess code)]) = _
      rw [if_pos hplay]
  · intro s code id name room hl hdup
    exact joinRoom_nameTaken s code id name room hl hdup

/-- The stored entry of player `A` in `roomPlay`. -/
def pA0 : Player := { id := "a", name := "A", isDead := false, roleData := some rdCit }

/-- The server state holding `roomPlay` with a pending timer for `"a"`. -/
def stPlay : ServerState := { rooms := [("WXYZ", roomPlay)], timers := ["a"] }

/-- Witness for `c8_rejoin_by_name`: player `A` of a playing room rejoins
under the fresh identity `"n"`. -/
theorem c8_rejoin_by_name_witness :
    lookupS stPlay.rooms "WXYZ" = some roomPlay ∧
    ((rejoinRoom stPlay "WXYZ" "A" "n").1.rooms =
        updateRoom stPlay.rooms "WXYZ"
          { roomPlay with
              players := updateAt roomPlay.players 0 (fun q => { q with id := "n" })
              host := if roomPlay.host = pA0.id then "n" else roomPlay.host } ∧
     (rejoinRoom stPlay "WXYZ" "A" "n").1.timers =
       stPlay.timers.filter (fun t => !(t == pA0.id)) ∧
     (updateAt roomPlay.players 0 (fun q => { q with id := "n" })).length =
       roomPlay.players.length ∧
     (updateAt roomPlay.players 0 (fun q => { q with id := "n" })).get? 0 =
       some { pA0 with id := "n" } ∧
     (roomPlay.gameState = "playing" →
       (rejoinRoom stPlay "WXYZ" "A" "n").2 =
         [(Dest.toRoom, Msg.updatePlayers
             (updateAt roomPlay.players 0 (fun q => { q with id := "n" }))
             (some (if roomPlay.host = pA0.id then "n" else roomPlay.host))),
          (Dest.toPlayer "n", Msg.gameStarted pA0.roleData)])) :=
  ⟨by decide,
   c8_rejoin_by_name.2.1 stPlay "WXYZ" "A" "n" roomPlay 0 pA0
     (by decide) (by decide) (by decide)⟩

end Impostor

namespace Impostor

/-! ## Claim C6 -/

/-- C6: in every server state reachable through the operations (create,
join, leave, rejoin, disconnect, timer-driven eviction, startGame,
startVoting, castVote, resetGame), no stored room has an empty roster — an
emptied room is deleted — and each room's host id is the id of some player
in its roster; moreover, when `handlePlayerExit` removes the host and
players remain, the new host is the first remaining player (the
earliest-joined survivor). -/
theorem c6_room_invariants :
    (∀ st : ServerState, Reachable st →
      ∀ e ∈ st.rooms, e.2.players ≠ [] ∧
        e.2.host ∈ e.2.players.map (fun p => p.id)) ∧
    (∀ (s : RoomStore) (code pid : String) (room : Room) (i : Nat),
      lookupS s code = some room →
      findIdxP (fun p => p.id == pid) room.players = some i →
      room.host = pid →
      removeAt room.players i ≠ [] →
      lookupS (handlePlayerExit s code pid) code = some
        { room with
            players := removeAt room.players i
            host := (((removeAt room.players i).get? 0).map
              (fun p => p.id)).getD "" }) ∧
    (∀ ps : List Player, ps ≠ [] → ∃ p0, ps.get? 0 = some p0 ∧
      (((ps.get? 0).map (fun p => p.id)).getD "") = p0.id) := by
  refine ⟨?_, ?_, ?_⟩
  · intro st h e he
    exact reachable_storeInv st h e he
  · intro s code pid room i hl hi hh hne
    rw [handlePlayerExit_found s code pid room i hl hi,
      if_neg (fun hlen => hne (List.length_eq_zero.mp hlen)),
      lookupS_updateRoom s code _ room hl, if_pos hh]
  · intro ps hne
    cases ps with
    | nil => exact absurd rfl hne
    | cons p0 rest => exact ⟨p0, rfl, rfl⟩

/-- Witness for `c6_room_invariants`: a freshly created room satisfies the
invariant, and removing the host `"a"` of a two-player room transfers the
host role to the earliest-joined survivor `"b"`. -/
theorem c6_room_invariants_witness :
    (∀ e ∈ (ServerState.mk (createRoom [] "QRST" "a" "A") []).rooms,
      e.2.players ≠ [] ∧ e.2.host ∈ e.2.players.map (fun p => p.id)) ∧
    lookupS (handlePlayerExit [("WXYZ", roomL)] "WXYZ" "a") "WXYZ" = some
      { roomL with
          players := removeAt roomL.players 0
          host := (((removeAt roomL.players 0).get? 0).map
            (fun p => p.id)).getD "" } :=
  ⟨c6_room_invariants.1 (ServerState.mk (createRoom [] "QRST" "a" "A") [])
     (Reachable.create ⟨[], []⟩ "QRST" "a" "A" Reachable.init),
   c6_room_invariants.2.1 [("WXYZ", roomL)] "WXYZ" "a" roomL 0
     (by decide) (by decide) (by decide) (by decide)⟩

end Impostor

namespace Impostor

/-! ## Claim C1 -/

/-- C1: when voting resolution runs and the plurality target is a player of
the room, (0) votes are tallied by target; (1) the eliminated target is the
first target to reach the strictly highest count in tallying order; the
victim is marked dead (2,3) and every player receives an individual
elimination event carrying whether that recipient was the victim and
whether the victim was an impostor (4); then the win conditions are
evaluated in order: (5) zero living impostors — citizens win with the
victim's name as the sole revealed impostor and the room resets to lobby;
(6) else living impostors ≥ living citizens — impostors win with all
impostors, living and dead, revealed, and the room resets to lobby;
(7) else the phase returns to playing, the votes are cleared and the next
starting player is drawn from the survivors. -/
theorem c1_voting_resolution (room : Room) (rand : Nat) (vid : String) (idx : Nat)
    (victim : Player)
    (hmax : findMostVoted (tallies room.votes) = some vid)
    (hidx : findIdxP (fun p => some p.id == some vid) room.players = some idx)
    (hvic : room.players.get? idx = some victim) :
    (∀ target, countVal (tallies room.votes) target =
      (room.votes.filter (fun v => v.2 == target)).length) ∧
    (∃ (c : Nat) (l₁ l₂ : List (String × Nat)),
      tallies room.votes = l₁ ++ (vid, c) :: l₂ ∧
      (∀ x ∈ l₁, x.2 < c) ∧ (∀ x ∈ l₂, x.2 ≤ c)) ∧
    (processVotingResult room rand = resolveElimination room
      (updateAt room.players idx (fun p => { p with isDead := true })) victim rand) ∧
    ((updateAt room.players idx (fun p => { p with isDead := true })).get? idx =
      some { victim with isDead := true }) ∧
    (∀ p ∈ updateAt room.players idx (fun p => { p with isDead := true }),
      (Dest.toPlayer p.id, Msg.playerEliminated victim.id victim.name
        (p.id == victim.id) (isImpostorP victim)) ∈
        (processVotingResult room rand).2) ∧
    ((livingImpostors (updateAt room.players idx
        (fun p => { p with isDead := true }))).length = 0 →
      processVotingResult room rand =
        (resetRoomToLobby { room with players := updateAt room.players idx (fun p => { p with isDead := true }) },
         elimMsgList (updateAt room.players idx (fun p => { p with isDead := true }))
           victim (isImpostorP victim) ++
           [(Dest.toRoom, Msg.gameOver "citizen" (citizenWinReason victim.name)
             [victim.name])])) ∧
    ((livingImpostors (updateAt room.players idx
        (fun p => { p with isDead := true }))).length ≠ 0 →
      (livingImpostors (updateAt room.players idx
        (fun p => { p with isDead := true }))).length ≥
        (livingPlayers (updateAt room.players idx
          (fun p => { p with isDead := true }))).length -
        (livingImpostors (updateAt room.players idx
          (fun p => { p with isDead := true }))).length →
      processVotingResult room rand =
        (resetRoomToLobby { room with players := updateAt room.players idx (fun p => { p with isDead := true }) },
         elimMsgList (updateAt room.players idx (fun p => { p with isDead := true }))
           victim (isImpostorP victim) ++
           [(Dest.toRoom, Msg.gameOver "impostor" impostorWinReason
             (((updateAt room.players idx (fun p => { p with isDead := true })).filter
               (fun p => isImpostorP p)).map (fun p => p.name)))])) ∧
    ((livingImpostors (updateAt room.players idx
        (fun p => { p with isDead := true }))).length ≠ 0 →
      ¬((livingImpostors (updateAt room.players idx
        (fun p => { p with isDead := true }))).length ≥
        (livingPlayers (updateAt room.players idx
          (fun p => { p with isDead := true }))).length -
        (livingImpostors (updateAt room.players idx
          (fun p => { p with isDead := true }))).length) →
      (processVotingResult room rand).1 =
        { room with players := updateAt room.players idx (fun p => { p with isDead := true }), gameState := "playing", votes := [] } ∧
      ∃ sp, (processVotingResult room rand).2 =
        elimMsgList (updateAt room.players idx (fun p => { p with isDead := true }))
          victim (isImpostorP victim) ++ [(Dest.toRoom, Msg.nextRound sp)] ∧
        sp ∈ (livingPlayers (updateAt room.players idx
          (fun p => { p with isDead := true }))).map (fun p => p.name)) := by
  have hscr := victimScrutinee room vid idx victim hmax hidx hvic
  have heq0 := processVotingResult_found room rand idx victim hscr
  refine ⟨?_, ?_, heq0, ?_, ?_, ?_, ?_, ?_⟩
  · intro target
    exact tallies_countVal room.votes target
  · exact findMostVoted_spec (tallies room.votes) vid hmax
  · exact updateAt_get_self _ room.players idx victim hvic
  · intro p hp
    rcases resolveElimination_msgs room
      (updateAt room.players idx (fun p => { p with isDead := true })) victim rand
      with ⟨rest, hrest⟩
    rw [heq0, hrest]
    exact List.mem_append.mpr (Or.inl (List.mem_map.mpr ⟨p, hp, rfl⟩))
  · intro h0
    rw [heq0]
    exact resolveElimination_citizens room _ victim rand h0
  · intro h1 h2
    rw [heq0]
    exact resolveElimination_impostors room _ victim rand h1 h2
  · intro h1 h2
    have heq := heq0.trans (resolveElimination_nextRound room _ victim rand h1 h2)
    constructor
    · rw [heq]
    · have himp_ne : livingImpostors (updateAt room.players idx
          (fun p => { p with isDead := true })) ≠ [] := by
        intro hnil
        exact h1 (by rw [hnil]; rfl)
      rcases List.exists_mem_of_ne_nil _ himp_ne with ⟨q, hq⟩
      have hq2 : q ∈ livingPlayers (updateAt room.players idx
          (fun p => { p with isDead := true })) := by
        have h3 := List.of_mem_filter hq
        have h4 := List.mem_of_mem_filter hq
        have h5 : (!q.isDead) = true ∧ isImpostorP q = true := by simpa using h3
        exact List.mem_filter.mpr ⟨h4, h5.1⟩
      have hs_ne : livingPlayers (updateAt room.players idx
          (fun p => { p with isDead := true })) ≠ [] := List.ne_nil_of_mem hq2
      rcases get_mod_mem (livingPlayers (updateAt room.players idx
          (fun p => { p with isDead := true }))) rand hs_ne with ⟨a, hget2, hmem2⟩
      refine ⟨a.name, ?_, List.mem_map.mpr ⟨a, hmem2, rfl⟩⟩
      rw [heq]
      show elimMsgList (updateAt room.players idx (fun p => { p with isDead := true }))
          victim (isImpostorP victim) ++
          [(Dest.toRoom, Msg.nextRound ((((livingPlayers (updateAt room.players idx
            (fun p => { p with isDead := true }))).get?
            (rand % (livingPlayers (updateAt room.players idx
              (fun p => { p with isDead := true }))).length)).map
            (fun p => p.name)).getD ""))] = _
      rw [hget2]
      rfl

/-- The voting room used as the C1 witness scenario: three living players,
one impostor (`B`), votes `A→B`, `B→A`, `C→B`. -/
def roomW : Room :=
  { host := "a",
    players := [{ id := "a", name := "A", isDead := false, roleData := some rdCit },
                { id := "b", name := "B", isDead := false, roleData := some rdImp },
                { id := "c", name := "C", isDead := false, roleData := some rdCit }],
    gameState := "voting",
    votes := [("a", "b"), ("b", "a"), ("c", "b")] }

/-- Witness for `c1_voting_resolution`: in `roomW` the plurality target is
the impostor `B`; resolution marks `B` dead and the citizens win. -/
theorem c1_voting_resolution_witness :
    findMostVoted (tallies roomW.votes) = some "b" ∧
    findIdxP (fun p => some p.id == some "b") roomW.players = some 1 ∧
    roomW.players.get? 1 =
      some { id := "b", name := "B", isDead := false, roleData := some rdImp } ∧
    processVotingResult roomW 0 = resolveElimination roomW
      (updateAt roomW.players 1 (fun p => { p with isDead := true }))
      { id := "b", name := "B", isDead := false, roleData := some rdImp } 0 :=
  ⟨by decide, by decide, by decide,
   (c1_voting_resolution roomW 0 "b" 1
     { id := "b", name := "B", isDead := false, roleData := some rdImp }
     (by decide) (by decide) (by decide)).2.2.1⟩

end Impostor
